import Mathlib

/-!
Verification of the incremental, idempotent metadata ingestion-and-healing
pipeline of `get_metadata.py` (Nautilus repository).

Modelling conventions of the shallow embedding:
* a text line is a `List Char` (files are lists of lines, newline separators
  are implicit, so Python `raw.rstrip(chr 10)` is the identity on a line);
* Python `str` values (fields, accessions, fetched metadata) are `List Char`;
* Python sets of strings are `Finset (List Char)`;
* the three external collaborators (the `datasets`/`dataformat` CLI pipeline,
  the ETE3 taxonomy client, the Entrez biosample fetcher) are oracle
  functions gathered in a `Collab` structure; a deterministic collaborator is
  simply such a function;
* Python `float` parsing is modelled over `ℚ` for plain decimal notation
  (optional sign, digits, optional fractional part); exponent, infinity and
  NaN spellings of Python floats are outside the coordinate formats at issue;
* functions whose Python body catches exceptions and returns a default are
  modelled as the corresponding total functions; reading a file that can fail
  mid-iteration is modelled by a list of `Except Unit` chunks.
-/

namespace GetMetadata

abbrev Line := List Char

def str (s : String) : Line := s.toList

def isWS (c : Char) : Bool := c.isWhitespace

/-- Python `s.strip()`: remove leading and trailing whitespace. -/
def pyStrip (l : Line) : Line := ((l.dropWhile isWS).reverse.dropWhile isWS).reverse

/-- Python `not line.strip()`. -/
def isBlank (l : Line) : Bool := pyStrip l == []

def toLowerL (l : Line) : Line := l.map Char.toLower

def toUpperL (l : Line) : Line := l.map Char.toUpper

/-- Python `s.startswith(p)`. -/
def startsWithL (l p : Line) : Bool := p.isPrefixOf l

/-- Python `needle in hay` for strings (substring containment). -/
def containsSub (hay needle : Line) : Bool :=
  match hay with
  | [] => needle == []
  | c :: t => needle.isPrefixOf (c :: t) || containsSub t needle

/-- Worker for Python `s.split(sep)` with a one-character separator. -/
def splitOnCharAux (sep : Char) : Line → Line → List Line
  | [], cur => [cur.reverse]
  | c :: cs, cur =>
    if c == sep then cur.reverse :: splitOnCharAux sep cs []
    else splitOnCharAux sep cs (c :: cur)

/-- Python `s.split(sep)` with a one-character separator. -/
def splitOnChar (sep : Char) (l : Line) : List Line := splitOnCharAux sep l []

/-- Python `line.split(tab)`: the tab-separated fields of a line. -/
def splitTab (l : Line) : List Line := splitOnChar '\t' l

/-- Python `tab.join(fields)`. -/
def joinTab : List Line → Line
  | [] => []
  | [p] => p
  | p :: q :: ps => p ++ '\t' :: joinTab (q :: ps)

/-- Worker for Python `s.split()` (split on whitespace runs, drop empties). -/
def pySplitAux : Line → Line → List Line
  | [], cur => if cur == [] then [] else [cur.reverse]
  | c :: cs, cur =>
    if isWS c then
      (if cur == [] then pySplitAux cs [] else cur.reverse :: pySplitAux cs [])
    else pySplitAux cs (c :: cur)

/-- Python `s.split()` with no argument. -/
def pySplit (l : Line) : List Line := pySplitAux l []

/-- Python `parts[0]` after `split(tab)`; the split list is never empty. -/
def firstField (l : Line) : Line := (splitTab l).headD []

/-- Python `s.isdigit()` (ASCII digits). -/
def pyIsDigit (l : Line) : Bool := !l.isEmpty && l.all Char.isDigit

/-- Python `int(s)` on a digit string. -/
def natOfDigits (l : Line) : ℕ := l.foldl (fun n c => n * 10 + (c.toNat - 48)) 0

/- ======================
   Biome / Coordinates (get_metadata.py lines 106-153)
   ====================== -/

/-- Python `s.replace(comma, dot)` character-wise (the replacement is one
character for one character, so it is a `map`). -/
def commaToDot (c : Char) : Char := if c == ',' then '.' else c

/-- Exact decimal number `mant / 10 ^ exp`: the value a successful Python
`float(...)` call reads off a plain decimal token.  Kept unreduced so that
equality is decidable by evaluation; `Decimal.toRat` interprets it in `ℚ`. -/
structure Decimal where
  mant : ℤ
  exp : ℕ
deriving DecidableEq

instance : Neg Decimal := ⟨fun d => ⟨-d.mant, d.exp⟩⟩

def Decimal.toRat (d : Decimal) : ℚ := (d.mant : ℚ) / (10 : ℚ) ^ d.exp

/-- Magnitude part of Python `float(s)` restricted to plain decimal
notation: `digits`, `digits.digits`, `digits.` or `.digits`. -/
def pyFloatMag (s : Line) : Option Decimal :=
  let intDigits := s.takeWhile Char.isDigit
  let rest := s.dropWhile Char.isDigit
  match rest with
  | [] => if intDigits.isEmpty then none else some ⟨natOfDigits intDigits, 0⟩
  | '.' :: frac =>
    if frac.all Char.isDigit && !(intDigits.isEmpty && frac.isEmpty) then
      some ⟨natOfDigits intDigits * 10 ^ frac.length + natOfDigits frac, frac.length⟩
    else none
  | _ => none

/-- Python `float(s)` (plain decimal notation, optional sign); `none` models
the `ValueError` that the caller catches. -/
def pyFloat (s : Line) : Option Decimal :=
  match s with
  | '+' :: rest => pyFloatMag rest
  | '-' :: rest => (pyFloatMag rest).map (fun d => -d)
  | _ => pyFloatMag s

/-- get_metadata.py lines 106-125, `parse_latitude_longitude`.
The `try`/`except` around the float conversions is modelled by the
`Option` failures of `pyFloat`; `none` input models Python `None`. -/
def parse_latitude_longitude (lat_lon_str : Option Line) : Option Decimal × Option Decimal :=
  match lat_lon_str with
  | none => (none, none)
  | some s =>
    let parts := pySplit ((pyStrip s).map commaToDot)
    if 4 ≤ parts.length then
      match pyFloat (parts.getD 0 []) with
      | none => (none, none)
      | some latitude_value =>
        match pyFloat (parts.getD 2 []) with
        | none => (none, none)
        | some longitude_value =>
          let latitude_direction := toUpperL (parts.getD 1 [])
          let longitude_direction := toUpperL (parts.getD 3 [])
          (some (if latitude_direction = str "S" then -latitude_value else latitude_value),
           some (if longitude_direction = str "W" then -longitude_value else longitude_value))
    else (none, none)

/-- Claim-side restatement of the (amended) coordinate-parser contract:
the first four whitespace tokens are `<lat> <lat dir> <lon> <lon dir>`,
extra tokens are ignored, and any failure yields `(none, none)`. -/
def parseLatLonOfTokens : List Line → Option Decimal × Option Decimal
  | v1 :: d1 :: v2 :: d2 :: _ =>
    match pyFloat v1, pyFloat v2 with
    | some la, some lo =>
      (some (if toUpperL d1 = str "S" then -la else la),
       some (if toUpperL d2 = str "W" then -lo else lo))
    | _, _ => (none, none)
  | _ => (none, none)

/-- Claim-side coordinate parser assembled from the token view. -/
def parseLatLonClaim (input : Option Line) : Option Decimal × Option Decimal :=
  match input with
  | none => (none, none)
  | some s => parseLatLonOfTokens (pySplit ((pyStrip s).map commaToDot))

/-- get_metadata.py lines 127-153, `categorize_biome`. -/
def categorize_biome (biome_description : Option Line) : Line :=
  match biome_description with
  | none => str "Unknown"
  | some d0 =>
    let d := toLowerL d0
    if [str "soil", str "forest", str "desert", str "savanna"].any (fun term => containsSub d term) then str "Terrestrial"
    else if [str "marine", str "sea", str "ocean", str "coastal"].any (fun term => containsSub d term) then str "Marine"
    else if [str "lake", str "freshwater", str "river", str "pond"].any (fun term => containsSub d term) then str "Freshwater"
    else if [str "waste", str "wastewater", str "sewage"].any (fun term => containsSub d term) then str "Wastewater"
    else if [str "host", str "symbiont", str "root", str "nodule"].any (fun term => containsSub d term) then str "Host-Associated"
    else if containsSub d (str "hypersaline") then str "Extreme - Hypersaline"
    else if containsSub d (str "hot spring") || containsSub d (str "thermal") then str "Extreme - Thermal"
    else if containsSub d (str "acidic") || containsSub d (str "alkaline") then str "Extreme - Acidic/Alkaline"
    else if [str "reef", str "coral"].any (fun term => containsSub d term) then str "Reef"
    else if containsSub d (str "environmental sample") then str "Environmental Sample"
    else str "Other"

/-- The fixed keyword groups of the biome classifier, in priority order
(spec section 4.4). -/
def biomeKeywordGroups : List (Line × List Line) :=
  [ (str "Terrestrial", [str "soil", str "forest", str "desert", str "savanna"]),
    (str "Marine", [str "marine", str "sea", str "ocean", str "coastal"]),
    (str "Freshwater", [str "lake", str "freshwater", str "river", str "pond"]),
    (str "Wastewater", [str "waste", str "wastewater", str "sewage"]),
    (str "Host-Associated", [str "host", str "symbiont", str "root", str "nodule"]),
    (str "Extreme - Hypersaline", [str "hypersaline"]),
    (str "Extreme - Thermal", [str "hot spring", str "thermal"]),
    (str "Extreme - Acidic/Alkaline", [str "acidic", str "alkaline"]),
    (str "Reef", [str "reef", str "coral"]),
    (str "Environmental Sample", [str "environmental sample"]) ]

/-- First keyword group (in priority order) matching the lowered text,
with fallback category `Other`. -/
def firstMatchIn (d : Line) : List (Line × List Line) → Line
  | [] => str "Other"
  | g :: gs => if g.2.any (fun term => containsSub d term) then g.1 else firstMatchIn d gs

def firstMatchCategory (d : Line) : Line := firstMatchIn d biomeKeywordGroups

/-- C5 (counterexample): the claim demands `(None, None)` for every token
count other than exactly four, but on five tokens the parser accepts the
first four and returns `(1, 2)`. -/
theorem parse_latitude_longitude_extra_tokens_cex :
    parse_latitude_longitude (some (str "1 N 2 E 9")) = (some ⟨1, 0⟩, some ⟨2, 0⟩) ∧
    ((some ⟨1, 0⟩, some ⟨2, 0⟩) : Option Decimal × Option Decimal) ≠ (none, none) := by
  constructor
  · decide
  · decide

/-- C5 (amended): `parse_latitude_longitude` maps `None` to `(None, None)`
and any string to the signed pair read from the FIRST FOUR whitespace
tokens (commas normalised to dots, hemisphere case-insensitive, S negates
latitude, W negates longitude, extra tokens beyond the fourth ignored),
yielding `(None, None)` when there are fewer than four tokens or a numeric
token does not parse; the spec examples hold (`12.34 N 56.78 W` gives
`(617/50, -2839/50) = (12.34, -56.78)` and so on). -/
theorem parse_latitude_longitude_spec :
    (∀ input : Option Line, parse_latitude_longitude input = parseLatLonClaim input) ∧
    parse_latitude_longitude (some (str "12.34 N 56.78 W")) = (some ⟨1234, 2⟩, some ⟨-5678, 2⟩) ∧
    Decimal.toRat ⟨1234, 2⟩ = 617/50 ∧ Decimal.toRat ⟨-5678, 2⟩ = -(2839/50) ∧
    parse_latitude_longitude (some (str "1,5 S 2,5 E")) = (some ⟨-15, 1⟩, some ⟨25, 1⟩) ∧
    Decimal.toRat ⟨-15, 1⟩ = -(3/2) ∧ Decimal.toRat ⟨25, 1⟩ = 5/2 ∧
    parse_latitude_longitude (some (str "garbage")) = (none, none) := by
  refine ⟨?_, by decide, by norm_num [Decimal.toRat], by norm_num [Decimal.toRat],
    by decide, by norm_num [Decimal.toRat], by norm_num [Decimal.toRat], by decide⟩
  intro input
  cases input with
  | none => rfl
  | some s =>
    simp only [parse_latitude_longitude, parseLatLonClaim]
    cases h : pySplit ((pyStrip s).map commaToDot) with
    | nil => simp [parseLatLonOfTokens]
    | cons v1 t1 =>
      cases t1 with
      | nil => simp [parseLatLonOfTokens]
      | cons d1 t2 =>
        cases t2 with
        | nil => simp [parseLatLonOfTokens]
        | cons v2 t3 =>
          cases t3 with
          | nil => simp [parseLatLonOfTokens]
          | cons d2 rest =>
            have hlen : 4 ≤ (v1 :: d1 :: v2 :: d2 :: rest).length := by
              simp only [List.length_cons]; omega
            rw [if_pos hlen]
            simp only [List.getD_cons_zero, List.getD_cons_succ, parseLatLonOfTokens]
            cases pyFloat v1 <;> cases pyFloat v2 <;> rfl

/-- C6 (counterexample): the claim maps the empty string to `Unknown`, but
only `None` yields `Unknown`; the empty string matches no keyword group and
falls through to `Other`. -/
theorem categorize_biome_empty_cex :
    categorize_biome (some (str "")) = str "Other" ∧ str "Other" ≠ str "Unknown" := by
  constructor
  · decide
  · decide

/-- C6 (amended): `categorize_biome` returns `Unknown` exactly on absent
(`None`) input; on any string it performs the case-insensitive first-match
over the fixed keyword groups in priority order with fallback `Other`
(so the empty string classifies as `Other`, not `Unknown`), the extreme
categories being spelled with spaced hyphens; the remaining spec examples
hold. -/
theorem categorize_biome_spec :
    categorize_biome none = str "Unknown" ∧
    (∀ d : Line, categorize_biome (some d) = firstMatchCategory (toLowerL d)) ∧
    categorize_biome (some (str "Deep sea sediment")) = str "Marine" ∧
    categorize_biome (some (str "Forest soil sample")) = str "Terrestrial" ∧
    categorize_biome (some (str "random text")) = str "Other" := by
  refine ⟨rfl, ?_, by decide, by decide, by decide⟩
  intro d
  unfold categorize_biome firstMatchCategory biomeKeywordGroups
  simp only [firstMatchIn, List.any_cons, List.any_nil, Bool.or_false]

/- ======================
   Ledger reading (get_metadata.py lines 46-84 and 253-264)
   ====================== -/

/-- The 18-column header (`HEADER`, get_metadata.py lines 253-258), as one
line without its trailing newline. -/
def headerLine : Line :=
  str "Assembly Accession\tOrganism Name\tOrganism Common Name\tOrganism Tax ID\tLineage\tAssembly Level\tBioProject Accession\tBioSample Accession\tGC Percent\tTotal Sequence Length\tSequencing Technology\tRelease Date\tCollection Date\tBioSample Description\tLocation\tBiomeDistribution\tLatitude\tLongitude"

/-- The header test applied to ledger-shaped files:
`line.lower().startswith("assembly accession")`. -/
def isLedgerHeader (l : Line) : Bool := startsWithL (toLowerL l) (str "assembly accession")

/-- get_metadata.py lines 260-264, `ensure_header`.  A file is modelled as
its list of lines; a missing or zero-size file (on which
`file_has_content` is false) is `[]`. -/
def ensure_header (ledger : List Line) : List Line :=
  if ledger = [] then [headerLine] else ledger

/-- Reading loop of `read_processed_accessions` (lines 62-73): skip blank
lines, skip the first non-blank line when it is the header, and add the
first tab-field of every other line to the set. -/
def rpLoop (acc : Finset Line) (first : Bool) : List Line → Finset Line
  | [] => acc
  | line :: rest =>
    if isBlank line then rpLoop acc first rest
    else if first && isLedgerHeader line then rpLoop acc false rest
    else rpLoop (insert (firstField line) acc) false rest

/-- `read_processed_accessions` on a file whose lines are all read without
error (the situation of the main pipeline, where the ledger it just wrote
is read back). -/
def read_processed_core (lines : List Line) : Finset Line := rpLoop ∅ true lines

/-- The same loop over a stream that may fail: an `Except.error` chunk
models the iteration raising at that point, upon which the surrounding
`except` arm returns the set gathered so far. -/
def rpExcLoop (acc : Finset Line) (first : Bool) : List (Except Unit Line) → Finset Line
  | [] => acc
  | Except.error _ :: _ => acc
  | Except.ok line :: rest =>
    if isBlank line then rpExcLoop acc first rest
    else if first && isLedgerHeader line then rpExcLoop acc false rest
    else rpExcLoop (insert (firstField line) acc) false rest

/-- get_metadata.py lines 52-76, `read_processed_accessions`.  `none` models
a missing or empty file (`file_has_content` false, lines 58-59); a chunk
`Except.error ()` models the read failing at that point (the warning the
`except` arm prints is I/O outside the model). -/
def read_processed_accessions (file : Option (List (Except Unit Line))) : Finset Line :=
  match file with
  | none => ∅
  | some chunks => rpExcLoop ∅ true chunks

/-- The lines successfully read before the first failure. -/
def okPart : List (Except Unit Line) → List Line
  | [] => []
  | Except.error _ :: _ => []
  | Except.ok l :: rest => l :: okPart rest

def nonBlankLines (lines : List Line) : List Line := lines.filter (fun l => !isBlank l)

def dropLedgerHeader : List Line → List Line
  | [] => []
  | h :: t => if isLedgerHeader h then t else h :: t

/-- Column 1 of the given lines, as a set. -/
def accessionsOf (lines : List Line) : Finset Line := (lines.map firstField).toFinset

/-- Declarative description of `read_processed_core`: column 1 of every
non-blank line, except a leading header line. -/
def rpClean (lines : List Line) : Finset Line :=
  accessionsOf (dropLedgerHeader (nonBlankLines lines))

/-- As `rpClean` but without dropping a leading header. -/
def rpNoHdr (lines : List Line) : Finset Line := accessionsOf (nonBlankLines lines)

theorem rpLoop_false_eq (lines : List Line) :
    ∀ acc, rpLoop acc false lines = acc ∪ rpNoHdr lines := by
  induction lines with
  | nil => intro acc; simp [rpLoop, rpNoHdr, nonBlankLines, accessionsOf]
  | cons line rest ih =>
    intro acc
    by_cases hb : isBlank line
    · simp [rpLoop, hb, rpNoHdr, nonBlankLines, ih]
    · simp [rpLoop, hb, ih, rpNoHdr, nonBlankLines, accessionsOf,
        Finset.insert_union, Finset.union_insert]

theorem rpLoop_true_eq (lines : List Line) :
    ∀ acc, rpLoop acc true lines = acc ∪ rpClean lines := by
  induction lines with
  | nil => intro acc; simp [rpLoop, rpClean, nonBlankLines, dropLedgerHeader, accessionsOf]
  | cons line rest ih =>
    intro acc
    by_cases hb : isBlank line
    · simp [rpLoop, hb, ih, rpClean, nonBlankLines]
    · by_cases hh : isLedgerHeader line
      · simp [rpLoop, hb, hh, rpLoop_false_eq, rpClean, rpNoHdr, nonBlankLines, dropLedgerHeader]
      · simp [rpLoop, hb, hh, rpLoop_false_eq, rpClean, rpNoHdr, nonBlankLines, dropLedgerHeader,
          accessionsOf, Finset.insert_union, Finset.union_insert]

theorem read_processed_core_eq (lines : List Line) :
    read_processed_core lines = rpClean lines := by
  have h := rpLoop_true_eq lines ∅
  simpa [read_processed_core] using h

theorem rpExcLoop_eq (chunks : List (Except Unit Line)) :
    ∀ acc first, rpExcLoop acc first chunks = rpLoop acc first (okPart chunks) := by
  induction chunks with
  | nil => intro acc first; rfl
  | cons c rest ih =>
    intro acc first
    cases c with
    | error e => rfl
    | ok line => simp [rpExcLoop, okPart, rpLoop, ih]

/-- C10: loading the processed-accession set is total: a missing or empty
file gives the empty set, and a file whose read fails partway gives exactly
the accessions gathered from the lines before the failure (first tab-field
of each non-blank line, skipping a leading header); the warning printed on
failure is I/O outside the model. -/
theorem read_processed_accessions_total :
    read_processed_accessions none = ∅ ∧
    (∀ chunks : List (Except Unit Line),
      read_processed_accessions (some chunks) = rpClean (okPart chunks)) := by
  refine ⟨rfl, ?_⟩
  intro chunks
  show rpExcLoop ∅ true chunks = _
  rw [rpExcLoop_eq]
  have h := rpLoop_true_eq (okPart chunks) ∅
  simpa using h

/- ======================
   Retry columns (get_metadata.py lines 311-324)
   ====================== -/

def allowedRetryColumns : Finset Line :=
  {str "biome", str "latlon", str "location", str "lineage"}

/-- get_metadata.py lines 311-324, `parse_retry_columns`; `none` models the
default `None` of the `--retry-columns` flag, and Python `if not s` is true
on both `None` and the empty string. -/
def parse_retry_columns (s : Option Line) : Finset Line :=
  match s with
  | none => allowedRetryColumns
  | some l =>
    if l = [] then allowedRetryColumns
    else
      let out := (splitOnChar ',' l).foldl
        (fun acc tok =>
          let t := toLowerL (pyStrip tok)
          if t ∈ allowedRetryColumns then insert t acc else acc) ∅
      if out = ∅ then allowedRetryColumns else out

/-- The recognised tokens of a `--retry-columns` value: each comma-piece,
stripped and lowered, intersected with the allowed names. -/
def recognizedRetryTokens (s : Option Line) : Finset Line :=
  match s with
  | none => ∅
  | some l =>
    ((splitOnChar ',' l).map (fun tok => toLowerL (pyStrip tok))).toFinset ∩ allowedRetryColumns

theorem retryFoldEq (toks : List Line) :
    ∀ acc : Finset Line,
      toks.foldl
        (fun acc tok =>
          let t := toLowerL (pyStrip tok)
          if t ∈ allowedRetryColumns then insert t acc else acc) acc
      = acc ∪ ((toks.map (fun tok => toLowerL (pyStrip tok))).toFinset ∩ allowedRetryColumns) := by
  induction toks with
  | nil => intro acc; simp
  | cons tok rest ih =>
    intro acc
    by_cases h : toLowerL (pyStrip tok) ∈ allowedRetryColumns
    · simp only [List.foldl_cons, if_pos h, List.map_cons, List.toFinset_cons, ih,
        Finset.insert_inter_of_mem h, Finset.union_insert, Finset.insert_union]
    · simp only [List.foldl_cons, if_neg h, List.map_cons, List.toFinset_cons, ih,
        Finset.insert_inter_of_not_mem h]

/-- C9: for every `--retry-columns` value (including absent and empty),
`parse_retry_columns` returns a non-empty subset of
`{biome, latlon, location, lineage}`, equal to that full set exactly when
no recognised token is present, so the healing scope is never empty. -/
theorem parse_retry_columns_nonempty (s : Option Line) :
    parse_retry_columns s ≠ ∅ ∧
    parse_retry_columns s ⊆ allowedRetryColumns ∧
    parse_retry_columns s =
      (if recognizedRetryTokens s = ∅ then allowedRetryColumns else recognizedRetryTokens s) := by
  match s with
  | none => refine ⟨by decide, by decide, by decide⟩
  | some l =>
    by_cases hl : l = []
    · subst hl; refine ⟨by decide, by decide, by decide⟩
    · have hrw : parse_retry_columns (some l) =
          (if recognizedRetryTokens (some l) = ∅ then allowedRetryColumns
           else recognizedRetryTokens (some l)) := by
        simp only [parse_retry_columns, if_neg hl, retryFoldEq, Finset.empty_union]
        rfl
      refine ⟨?_, ?_, hrw⟩
      · rw [hrw]
        by_cases hR : recognizedRetryTokens (some l) = ∅
        · simp only [if_pos hR]; decide
        · simp only [if_neg hR]; exact hR
      · rw [hrw]
        by_cases hR : recognizedRetryTokens (some l) = ∅
        · simp only [if_pos hR]; exact fun x hx => hx
        · rw [if_neg hR]
          simp only [recognizedRetryTokens]
          exact fun x hx => (Finset.mem_inter.mp hx).2

/- ======================
   Healing merge (get_metadata.py lines 302-374)
   ====================== -/

/-- The four-field biosample dictionary returned by
`fetch_biosample_metadata` (lines 215-228); values are the strings written
into the row (`Latitude`/`Longitude` hold either a printed number or
`Unknown`). -/
structure BioMeta where
  location : Line
  biome : Line
  latitude : Line
  longitude : Line

theorem getD_set_ne (l : List Line) (i j : ℕ) (v : Line) (h : i ≠ j) :
    (l.set i v).getD j [] = l.getD j [] := by
  simp [List.getD_eq_getElem?_getD, List.getElem?_set_ne h]

theorem getD_set_self (l : List Line) (i : ℕ) (v : Line) (h : i < l.length) :
    (l.set i v).getD i [] = v := by
  simp [List.getD_eq_getElem?_getD, List.getElem?_set, h]

/-- get_metadata.py lines 326-341, `needs_retry`.  The `try`/`except`
returns `False` on an `IndexError`, which for indices `4` and `-4..-1`
happens exactly when the row has fewer than 5 fields; Python negative
indices `-4..-1` address `n-4..n-1`. -/
def needs_retry (parts : List Line) (cols : Finset Line) : Bool :=
  if parts.length < 5 then false
  else
    let n := parts.length
    let lineage_bad := pyStrip (parts.getD 4 []) == str "Unknown"
    let loc_bad := pyStrip (parts.getD (n-4) []) == [] || pyStrip (parts.getD (n-4) []) == str "Unknown"
    let biome_bad := pyStrip (parts.getD (n-3) []) == [] || pyStrip (parts.getD (n-3) []) == str "Unknown"
    let lat_bad := pyStrip (parts.getD (n-2) []) == [] || pyStrip (parts.getD (n-2) []) == str "Unknown"
    let lon_bad := pyStrip (parts.getD (n-1) []) == [] || pyStrip (parts.getD (n-1) []) == str "Unknown"
    let latlon_bad := lat_bad || lon_bad
    (decide (str "lineage" ∈ cols) && lineage_bad) ||
    (decide (str "location" ∈ cols) && loc_bad) ||
    (decide (str "biome" ∈ cols) && biome_bad) ||
    (decide (str "latlon" ∈ cols) && latlon_bad)

/-- Lineage branch of `merge_retry` (lines 349-354): overwrite field 4 when
`lineage` is in scope, the stripped current value is `Unknown`, the tax id
is a digit string and the freshly resolved lineage is truthy and not
`Unknown`. -/
def mergeLineageStep (gl : ℕ → Line) (tax_id_str : Line) (cols : Finset Line)
    (st : List Line × List Line) : List Line × List Line :=
  if str "lineage" ∈ cols ∧ pyStrip (st.1.getD 4 []) = str "Unknown" ∧ pyIsDigit tax_id_str = true then
    if gl (natOfDigits tax_id_str) ≠ [] ∧ gl (natOfDigits tax_id_str) ≠ str "Unknown" then
      (st.1.set 4 (gl (natOfDigits tax_id_str)), st.2 ++ [str "lineage"])
    else st
  else st

/-- One biosample branch of `merge_retry` (lines 357-372): overwrite index
`i` with `v` when the column group `g` is in scope, the stripped current
value is empty or `Unknown`, and `v` passes the truthiness test `vOk` of
that branch; `dedup` reproduces the `latlon`-tag deduplication of the
improved list. -/
def mergeFieldStep (g : Line) (i : ℕ) (v : Line) (vOk : Prop) [Decidable vOk]
    (dedup : Bool) (cols : Finset Line) (st : List Line × List Line) : List Line × List Line :=
  if g ∈ cols ∧ (pyStrip (st.1.getD i []) = [] ∨ pyStrip (st.1.getD i []) = str "Unknown") ∧ vOk then
    (st.1.set i v, if dedup && decide (g ∈ st.2) then st.2 else st.2 ++ [g])
  else st

/-- get_metadata.py lines 343-374, `merge_retry`: the lineage branch, then,
when a biosample dictionary is present (`meta = some m`; `none` models the
empty dict `\x7b\x7d` passed when no biosample column is in scope), the four
biosample branches in source order — location (`v` truthy), biome (`v`
truthy), latitude and longitude (`v` neither empty nor `Unknown`) — each
reading the current value of the row exactly as the Python code mutates
`parts` in place.  Returns the updated row and the improved-tags list. -/
def merge_retry (gl : ℕ → Line) (parts : List Line) (tax_id_str : Line)
    (meta : Option BioMeta) (cols : Finset Line) : List Line × List Line :=
  let n := parts.length
  let st0 := mergeLineageStep gl tax_id_str cols (parts, [])
  match meta with
  | none => st0
  | some m =>
    let st1 := mergeFieldStep (str "location") (n-4) m.location (m.location ≠ []) false cols st0
    let st2 := mergeFieldStep (str "biome") (n-3) m.biome (m.biome ≠ []) false cols st1
    let st3 := mergeFieldStep (str "latlon") (n-2) m.latitude
      (m.latitude ≠ [] ∧ m.latitude ≠ str "Unknown") true cols st2
    let st4 := mergeFieldStep (str "latlon") (n-1) m.longitude
      (m.longitude ≠ [] ∧ m.longitude ≠ str "Unknown") true cols st3
    st4

theorem merge_retry_none_eq (gl : ℕ → Line) (parts : List Line) (tax : Line)
    (cols : Finset Line) :
    merge_retry gl parts tax none cols = mergeLineageStep gl tax cols (parts, []) := rfl

theorem merge_retry_some_eq (gl : ℕ → Line) (parts : List Line) (tax : Line)
    (m : BioMeta) (cols : Finset Line) :
    merge_retry gl parts tax (some m) cols =
      mergeFieldStep (str "latlon") (parts.length-1) m.longitude
        (m.longitude ≠ [] ∧ m.longitude ≠ str "Unknown") true cols
        (mergeFieldStep (str "latlon") (parts.length-2) m.latitude
          (m.latitude ≠ [] ∧ m.latitude ≠ str "Unknown") true cols
          (mergeFieldStep (str "biome") (parts.length-3) m.biome (m.biome ≠ []) false cols
            (mergeFieldStep (str "location") (parts.length-4) m.location (m.location ≠ []) false cols
              (mergeLineageStep gl tax cols (parts, []))))) := rfl

theorem mergeLineageStep_length (gl : ℕ → Line) (tax : Line) (cols : Finset Line)
    (st : List Line × List Line) :
    (mergeLineageStep gl tax cols st).1.length = st.1.length := by
  unfold mergeLineageStep
  split
  · split
    · simp [List.length_set]
    · rfl
  · rfl

theorem mergeLineageStep_getD_ne (gl : ℕ → Line) (tax : Line) (cols : Finset Line)
    (st : List Line × List Line) (j : ℕ) (hj : j ≠ 4) :
    (mergeLineageStep gl tax cols st).1.getD j [] = st.1.getD j [] := by
  unfold mergeLineageStep
  split
  · split
    · simp only []
      exact getD_set_ne _ _ _ _ (fun e => hj e.symm)
    · rfl
  · rfl

theorem mergeLineageStep_changed (gl : ℕ → Line) (tax : Line) (cols : Finset Line)
    (st : List Line × List Line) (h4 : 4 < st.1.length) :
    (mergeLineageStep gl tax cols st).1.getD 4 [] ≠ st.1.getD 4 [] →
      str "lineage" ∈ cols ∧ pyStrip (st.1.getD 4 []) = str "Unknown" ∧
      (mergeLineageStep gl tax cols st).1.getD 4 [] ≠ [] ∧
      (mergeLineageStep gl tax cols st).1.getD 4 [] ≠ str "Unknown" := by
  unfold mergeLineageStep
  split
  case isTrue hA =>
    split
    case isTrue hB =>
      intro _
      refine ⟨hA.1, hA.2.1, ?_, ?_⟩
      · simp only [getD_set_self _ _ _ h4]
        exact hB.1
      · simp only [getD_set_self _ _ _ h4]
        exact hB.2
    case isFalse hB => intro hne; exact absurd rfl hne
  case isFalse hA => intro hne; exact absurd rfl hne

theorem mergeFieldStep_length (g : Line) (i : ℕ) (v : Line) (vOk : Prop) [Decidable vOk]
    (dedup : Bool) (cols : Finset Line) (st : List Line × List Line) :
    (mergeFieldStep g i v vOk dedup cols st).1.length = st.1.length := by
  unfold mergeFieldStep
  split
  · simp [List.length_set]
  · rfl

theorem mergeFieldStep_getD_ne (g : Line) (i : ℕ) (v : Line) (vOk : Prop) [Decidable vOk]
    (dedup : Bool) (cols : Finset Line) (st : List Line × List Line) (j : ℕ) (hj : j ≠ i) :
    (mergeFieldStep g i v vOk dedup cols st).1.getD j [] = st.1.getD j [] := by
  unfold mergeFieldStep
  split
  · simp only []
    exact getD_set_ne _ _ _ _ (fun e => hj e.symm)
  · rfl

theorem mergeFieldStep_changed (g : Line) (i : ℕ) (v : Line) (vOk : Prop) [Decidable vOk]
    (dedup : Bool) (cols : Finset Line) (st : List Line × List Line) (hi : i < st.1.length) :
    (mergeFieldStep g i v vOk dedup cols st).1.getD i [] ≠ st.1.getD i [] →
      g ∈ cols ∧ (pyStrip (st.1.getD i []) = [] ∨ pyStrip (st.1.getD i []) = str "Unknown") ∧ vOk ∧
      (mergeFieldStep g i v vOk dedup cols st).1.getD i [] = v := by
  unfold mergeFieldStep
  split
  case isTrue h =>
    intro _
    exact ⟨h.1, h.2.1, h.2.2, by simp only [getD_set_self _ _ _ hi]⟩
  case isFalse h => intro hne; exact absurd rfl hne

theorem merge_retry_length (gl : ℕ → Line) (parts : List Line) (tax : Line)
    (meta : Option BioMeta) (cols : Finset Line) :
    (merge_retry gl parts tax meta cols).1.length = parts.length := by
  cases meta with
  | none =>
    rw [merge_retry_none_eq, mergeLineageStep_length]
  | some m =>
    rw [merge_retry_some_eq, mergeFieldStep_length, mergeFieldStep_length,
      mergeFieldStep_length, mergeFieldStep_length, mergeLineageStep_length]

theorem merge_retry_getD_stable (gl : ℕ → Line) (parts : List Line) (tax : Line)
    (meta : Option BioMeta) (cols : Finset Line) (j : ℕ)
    (hj4 : j ≠ 4) (hja : j ≠ parts.length-4) (hjb : j ≠ parts.length-3)
    (hjc : j ≠ parts.length-2) (hjd : j ≠ parts.length-1) :
    (merge_retry gl parts tax meta cols).1.getD j [] = parts.getD j [] := by
  cases meta with
  | none =>
    rw [merge_retry_none_eq]
    exact mergeLineageStep_getD_ne _ _ _ _ _ hj4
  | some m =>
    rw [merge_retry_some_eq,
      mergeFieldStep_getD_ne _ _ _ _ _ _ _ _ hjd,
      mergeFieldStep_getD_ne _ _ _ _ _ _ _ _ hjc,
      mergeFieldStep_getD_ne _ _ _ _ _ _ _ _ hjb,
      mergeFieldStep_getD_ne _ _ _ _ _ _ _ _ hja]
    exact mergeLineageStep_getD_ne _ _ _ _ _ hj4

theorem merge_retry_lineage_frame (gl : ℕ → Line) (parts : List Line) (tax : Line)
    (meta : Option BioMeta) (cols : Finset Line) (h18 : 18 ≤ parts.length) :
    (merge_retry gl parts tax meta cols).1.getD 4 [] ≠ parts.getD 4 [] →
      str "lineage" ∈ cols ∧ pyStrip (parts.getD 4 []) = str "Unknown" ∧
      (merge_retry gl parts tax meta cols).1.getD 4 [] ≠ [] ∧
      (merge_retry gl parts tax meta cols).1.getD 4 [] ≠ str "Unknown" := by
  have h4 : 4 < parts.length := by omega
  cases meta with
  | none =>
    rw [merge_retry_none_eq]
    exact mergeLineageStep_changed gl tax cols (parts, []) h4
  | some m =>
    rw [merge_retry_some_eq,
      mergeFieldStep_getD_ne _ _ _ _ _ _ _ _ (by omega : (4:ℕ) ≠ parts.length-1),
      mergeFieldStep_getD_ne _ _ _ _ _ _ _ _ (by omega : (4:ℕ) ≠ parts.length-2),
      mergeFieldStep_getD_ne _ _ _ _ _ _ _ _ (by omega : (4:ℕ) ≠ parts.length-3),
      mergeFieldStep_getD_ne _ _ _ _ _ _ _ _ (by omega : (4:ℕ) ≠ parts.length-4)]
    exact mergeLineageStep_changed gl tax cols (parts, []) h4

theorem merge_retry_location_frame (gl : ℕ → Line) (parts : List Line) (tax : Line)
    (meta : Option BioMeta) (cols : Finset Line) (h18 : 18 ≤ parts.length) :
    (merge_retry gl parts tax meta cols).1.getD (parts.length-4) [] ≠ parts.getD (parts.length-4) [] →
      str "location" ∈ cols ∧
      (pyStrip (parts.getD (parts.length-4) []) = [] ∨
        pyStrip (parts.getD (parts.length-4) []) = str "Unknown") ∧
      (merge_retry gl parts tax meta cols).1.getD (parts.length-4) [] ≠ [] := by
  cases meta with
  | none =>
    rw [merge_retry_none_eq, mergeLineageStep_getD_ne _ _ _ _ _ (by omega)]
    intro hne; exact absurd rfl hne
  | some m =>
    rw [merge_retry_some_eq,
      mergeFieldStep_getD_ne _ _ _ _ _ _ _ _ (by omega : parts.length-4 ≠ parts.length-1),
      mergeFieldStep_getD_ne _ _ _ _ _ _ _ _ (by omega : parts.length-4 ≠ parts.length-2),
      mergeFieldStep_getD_ne _ _ _ _ _ _ _ _ (by omega : parts.length-4 ≠ parts.length-3)]
    have hst0 : (mergeLineageStep gl tax cols (parts, [])).1.getD (parts.length-4) []
        = parts.getD (parts.length-4) [] :=
      mergeLineageStep_getD_ne _ _ _ _ _ (by omega)
    have hlen : parts.length-4 < (mergeLineageStep gl tax cols (parts, [])).1.length := by
      rw [mergeLineageStep_length]
      show parts.length-4 < parts.length
      omega
    intro hne
    obtain ⟨hc, hu, hv, heq⟩ :=
      mergeFieldStep_changed (str "location") (parts.length-4) m.location (m.location ≠ [])
        false cols _ hlen (by rw [hst0]; exact hne)
    rw [hst0] at hu
    exact ⟨hc, hu, by rw [heq]; exact hv⟩

theorem merge_retry_biome_frame (gl : ℕ → Line) (parts : List Line) (tax : Line)
    (meta : Option BioMeta) (cols : Finset Line) (h18 : 18 ≤ parts.length) :
    (merge_retry gl parts tax meta cols).1.getD (parts.length-3) [] ≠ parts.getD (parts.length-3) [] →
      str "biome" ∈ cols ∧
      (pyStrip (parts.getD (parts.length-3) []) = [] ∨
        pyStrip (parts.getD (parts.length-3) []) = str "Unknown") ∧
      (merge_retry gl parts tax meta cols).1.getD (parts.length-3) [] ≠ [] := by
  cases meta with
  | none =>
    rw [merge_retry_none_eq, mergeLineageStep_getD_ne _ _ _ _ _ (by omega)]
    intro hne; exact absurd rfl hne
  | some m =>
    rw [merge_retry_some_eq,
      mergeFieldStep_getD_ne _ _ _ _ _ _ _ _ (by omega : parts.length-3 ≠ parts.length-1),
      mergeFieldStep_getD_ne _ _ _ _ _ _ _ _ (by omega : parts.length-3 ≠ parts.length-2)]
    have hst1 : (mergeFieldStep (str "location") (parts.length-4) m.location (m.location ≠ [])
          false cols (mergeLineageStep gl tax cols (parts, []))).1.getD (parts.length-3) []
        = parts.getD (parts.length-3) [] := by
      rw [mergeFieldStep_getD_ne _ _ _ _ _ _ _ _ (by omega : parts.length-3 ≠ parts.length-4)]
      exact mergeLineageStep_getD_ne _ _ _ _ _ (by omega)
    have hlen : parts.length-3 < (mergeFieldStep (str "location") (parts.length-4) m.location
        (m.location ≠ []) false cols (mergeLineageStep gl tax cols (parts, []))).1.length := by
      rw [mergeFieldStep_length, mergeLineageStep_length]
      show parts.length-3 < parts.length
      omega
    intro hne
    obtain ⟨hc, hu, hv, heq⟩ :=
      mergeFieldStep_changed (str "biome") (parts.length-3) m.biome (m.biome ≠ [])
        false cols _ hlen (by rw [hst1]; exact hne)
    rw [hst1] at hu
    exact ⟨hc, hu, by rw [heq]; exact hv⟩

theorem merge_retry_latitude_frame (gl : ℕ → Line) (parts : List Line) (tax : Line)
    (meta : Option BioMeta) (cols : Finset Line) (h18 : 18 ≤ parts.length) :
    (merge_retry gl parts tax meta cols).1.getD (parts.length-2) [] ≠ parts.getD (parts.length-2) [] →
      str "latlon" ∈ cols ∧
      (pyStrip (parts.getD (parts.length-2) []) = [] ∨
        pyStrip (parts.getD (parts.length-2) []) = str "Unknown") ∧
      (merge_retry gl parts tax meta cols).1.getD (parts.length-2) [] ≠ [] ∧
      (merge_retry gl parts tax meta cols).1.getD (parts.length-2) [] ≠ str "Unknown" := by
  cases meta with
  | none =>
    rw [merge_retry_none_eq, mergeLineageStep_getD_ne _ _ _ _ _ (by omega)]
    intro hne; exact absurd rfl hne
  | some m =>
    rw [merge_retry_some_eq,
      mergeFieldStep_getD_ne _ _ _ _ _ _ _ _ (by omega : parts.length-2 ≠ parts.length-1)]
    have hst2 : (mergeFieldStep (str "biome") (parts.length-3) m.biome (m.biome ≠ []) false cols
          (mergeFieldStep (str "location") (parts.length-4) m.location (m.location ≠ [])
            false cols (mergeLineageStep gl tax cols (parts, [])))).1.getD (parts.length-2) []
        = parts.getD (parts.length-2) [] := by
      rw [mergeFieldStep_getD_ne _ _ _ _ _ _ _ _ (by omega : parts.length-2 ≠ parts.length-3),
        mergeFieldStep_getD_ne _ _ _ _ _ _ _ _ (by omega : parts.length-2 ≠ parts.length-4)]
      exact mergeLineageStep_getD_ne _ _ _ _ _ (by omega)
    have hlen : parts.length-2 < (mergeFieldStep (str "biome") (parts.length-3) m.biome
        (m.biome ≠ []) false cols
        (mergeFieldStep (str "location") (parts.length-4) m.location (m.location ≠ [])
          false cols (mergeLineageStep gl tax cols (parts, [])))).1.length := by
      rw [mergeFieldStep_length, mergeFieldStep_length, mergeLineageStep_length]
      show parts.length-2 < parts.length
      omega
    intro hne
    obtain ⟨hc, hu, hv, heq⟩ :=
      mergeFieldStep_changed (str "latlon") (parts.length-2) m.latitude
        (m.latitude ≠ [] ∧ m.latitude ≠ str "Unknown") true cols _ hlen (by rw [hst2]; exact hne)
    rw [hst2] at hu
    exact ⟨hc, hu, by rw [heq]; exact hv.1, by rw [heq]; exact hv.2⟩

theorem merge_retry_longitude_frame (gl : ℕ → Line) (parts : List Line) (tax : Line)
    (meta : Option BioMeta) (cols : Finset Line) (h18 : 18 ≤ parts.length) :
    (merge_retry gl parts tax meta cols).1.getD (parts.length-1) [] ≠ parts.getD (parts.length-1) [] →
      str "latlon" ∈ cols ∧
      (pyStrip (parts.getD (parts.length-1) []) = [] ∨
        pyStrip (parts.getD (parts.length-1) []) = str "Unknown") ∧
      (merge_retry gl parts tax meta cols).1.getD (parts.length-1) [] ≠ [] ∧
      (merge_retry gl parts tax meta cols).1.getD (parts.length-1) [] ≠ str "Unknown" := by
  cases meta with
  | none =>
    rw [merge_retry_none_eq, mergeLineageStep_getD_ne _ _ _ _ _ (by omega)]
    intro hne; exact absurd rfl hne
  | some m =>
    rw [merge_retry_some_eq]
    have hst3 : (mergeFieldStep (str "latlon") (parts.length-2) m.latitude
          (m.latitude ≠ [] ∧ m.latitude ≠ str "Unknown") true cols
          (mergeFieldStep (str "biome") (parts.length-3) m.biome (m.biome ≠ []) false cols
            (mergeFieldStep (str "location") (parts.length-4) m.location (m.location ≠ [])
              false cols (mergeLineageStep gl tax cols (parts, []))))).1.getD (parts.length-1) []
        = parts.getD (parts.length-1) [] := by
      rw [mergeFieldStep_getD_ne _ _ _ _ _ _ _ _ (by omega : parts.length-1 ≠ parts.length-2),
        mergeFieldStep_getD_ne _ _ _ _ _ _ _ _ (by omega : parts.length-1 ≠ parts.length-3),
        mergeFieldStep_getD_ne _ _ _ _ _ _ _ _ (by omega : parts.length-1 ≠ parts.length-4)]
      exact mergeLineageStep_getD_ne _ _ _ _ _ (by omega)
    have hlen : parts.length-1 < (mergeFieldStep (str "latlon") (parts.length-2) m.latitude
        (m.latitude ≠ [] ∧ m.latitude ≠ str "Unknown") true cols
        (mergeFieldStep (str "biome") (parts.length-3) m.biome (m.biome ≠ []) false cols
          (mergeFieldStep (str "location") (parts.length-4) m.location (m.location ≠ [])
            false cols (mergeLineageStep gl tax cols (parts, []))))).1.length := by
      rw [mergeFieldStep_length, mergeFieldStep_length, mergeFieldStep_length,
        mergeLineageStep_length]
      show parts.length-1 < parts.length
      omega
    intro hne
    obtain ⟨hc, hu, hv, heq⟩ :=
      mergeFieldStep_changed (str "latlon") (parts.length-1) m.longitude
        (m.longitude ≠ [] ∧ m.longitude ≠ str "Unknown") true cols _ hlen (by rw [hst3]; exact hne)
    rw [hst3] at hu
    exact ⟨hc, hu, by rw [heq]; exact hv.1, by rw [heq]; exact hv.2⟩

/-- The (amended) monotonicity and frame contract of `merge_retry` on an
18-field-or-wider row: row length preserved; every field outside the five
healable positions (and in particular the accession, field 0) unchanged; a
change at a healable position requires its group in scope and the prior
value unresolved; lineage, latitude and longitude are only ever overwritten
with a value that is neither empty nor `Unknown`, while location and biome
are only guaranteed a non-empty (possibly `Unknown`) new value. -/
def MergeRetryContract (gl : ℕ → Line) (parts : List Line) (tax : Line)
    (meta : Option BioMeta) (cols : Finset Line) : Prop :=
  (merge_retry gl parts tax meta cols).1.length = parts.length ∧
  (∀ j, j ≠ 4 → j ≠ parts.length-4 → j ≠ parts.length-3 → j ≠ parts.length-2 →
    j ≠ parts.length-1 →
    (merge_retry gl parts tax meta cols).1.getD j [] = parts.getD j []) ∧
  (merge_retry gl parts tax meta cols).1.getD 0 [] = parts.getD 0 [] ∧
  ((merge_retry gl parts tax meta cols).1.getD 4 [] ≠ parts.getD 4 [] →
    str "lineage" ∈ cols ∧ pyStrip (parts.getD 4 []) = str "Unknown" ∧
    (merge_retry gl parts tax meta cols).1.getD 4 [] ≠ [] ∧
    (merge_retry gl parts tax meta cols).1.getD 4 [] ≠ str "Unknown") ∧
  ((merge_retry gl parts tax meta cols).1.getD (parts.length-4) [] ≠ parts.getD (parts.length-4) [] →
    str "location" ∈ cols ∧
    (pyStrip (parts.getD (parts.length-4) []) = [] ∨
      pyStrip (parts.getD (parts.length-4) []) = str "Unknown") ∧
    (merge_retry gl parts tax meta cols).1.getD (parts.length-4) [] ≠ []) ∧
  ((merge_retry gl parts tax meta cols).1.getD (parts.length-3) [] ≠ parts.getD (parts.length-3) [] →
    str "biome" ∈ cols ∧
    (pyStrip (parts.getD (parts.length-3) []) = [] ∨
      pyStrip (parts.getD (parts.length-3) []) = str "Unknown") ∧
    (merge_retry gl parts tax meta cols).1.getD (parts.length-3) [] ≠ []) ∧
  ((merge_retry gl parts tax meta cols).1.getD (parts.length-2) [] ≠ parts.getD (parts.length-2) [] →
    str "latlon" ∈ cols ∧
    (pyStrip (parts.getD (parts.length-2) []) = [] ∨
      pyStrip (parts.getD (parts.length-2) []) = str "Unknown") ∧
    (merge_retry gl parts tax meta cols).1.getD (parts.length-2) [] ≠ [] ∧
    (merge_retry gl parts tax meta cols).1.getD (parts.length-2) [] ≠ str "Unknown") ∧
  ((merge_retry gl parts tax meta cols).1.getD (parts.length-1) [] ≠ parts.getD (parts.length-1) [] →
    str "latlon" ∈ cols ∧
    (pyStrip (parts.getD (parts.length-1) []) = [] ∨
      pyStrip (parts.getD (parts.length-1) []) = str "Unknown") ∧
    (merge_retry gl parts tax meta cols).1.getD (parts.length-1) [] ≠ [] ∧
    (merge_retry gl parts tax meta cols).1.getD (parts.length-1) [] ≠ str "Unknown")

theorem merge_retry_spec (gl : ℕ → Line) (parts : List Line) (tax : Line)
    (meta : Option BioMeta) (cols : Finset Line) (h18 : 18 ≤ parts.length) :
    MergeRetryContract gl parts tax meta cols := by
  refine ⟨merge_retry_length gl parts tax meta cols,
    fun j hj4 hja hjb hjc hjd => merge_retry_getD_stable gl parts tax meta cols j hj4 hja hjb hjc hjd,
    merge_retry_getD_stable gl parts tax meta cols 0 (by omega) (by omega) (by omega) (by omega) (by omega),
    merge_retry_lineage_frame gl parts tax meta cols h18,
    merge_retry_location_frame gl parts tax meta cols h18,
    merge_retry_biome_frame gl parts tax meta cols h18,
    merge_retry_latitude_frame gl parts tax meta cols h18,
    merge_retry_longitude_frame gl parts tax meta cols h18⟩

/-- An 18-field ledger row whose location field (index 14 = 18-4) is empty
and whose lineage, biome, latitude and longitude are resolved. -/
def cexParts : List Line :=
  [str "GCA_000001.1", str "OrgName", str "", str "77", str "Bacteria; More",
   str "Contig", str "PRJ1", str "SAMN1", str "50.0", str "1000", str "Tech",
   str "2020-01-01", str "2019-01-01", str "Desc", str "", str "Marine",
   str "1.0", str "2.0"]

/-- The all-Unknown biosample dictionary that `fetch_biosample_metadata`
returns on any failure. -/
def unknownMeta : BioMeta :=
  ⟨str "Unknown", str "Unknown", str "Unknown", str "Unknown"⟩

/-- C3 (counterexample): with the location field previously empty and the
biosample fetch degraded to all-`Unknown` defaults, `merge_retry` writes
the sentinel `Unknown` over the location field — the claim says healing
never writes `Unknown` over any field and only writes resolved values. -/
theorem merge_retry_writes_unknown_cex :
    (merge_retry (fun _ => str "Unknown") cexParts (str "77")
        (some unknownMeta) allowedRetryColumns).1.getD 14 [] = str "Unknown" ∧
    cexParts.getD 14 [] = [] := by
  constructor
  · decide
  · decide

/-- C3 (amended): on every ledger row of at least 18 fields, for every
requested field group and every collaborator value, the healing merge
overwrites a field only when the prior value is unresolved (lineage: the
stripped prior is exactly `Unknown`; the biosample fields: empty or
`Unknown`), never touches any field outside the five healable positions,
and never replaces a resolved value; the newly written value is never empty
and — for lineage, latitude and longitude — never `Unknown`, but the
location and biome branches only test truthiness of the fetched value and
so can write the sentinel `Unknown` over an unresolved field. -/
theorem merge_retry_monotonic_amended (gl : ℕ → Line) (parts : List Line) (tax : Line)
    (meta : Option BioMeta) (cols : Finset Line) (h18 : 18 ≤ parts.length) :
    MergeRetryContract gl parts tax meta cols :=
  merge_retry_spec gl parts tax meta cols h18

theorem merge_retry_monotonic_amended_witness :
    18 ≤ cexParts.length ∧
    MergeRetryContract (fun _ => str "Unknown") cexParts (str "77")
      (some unknownMeta) allowedRetryColumns :=
  ⟨by decide,
   merge_retry_monotonic_amended (fun _ => str "Unknown") cexParts (str "77")
     (some unknownMeta) allowedRetryColumns (by decide)⟩

/- ======================
   Healing rewrite (get_metadata.py lines 376-429)
   ====================== -/

/-- The external collaborators, as deterministic oracle functions:
`run_ncbi_datasets_summary` (lines 234-247) returns the process status and
the stdout already split into lines (`splitlines`); `get_lineage` (lines
92-100) is total, returning `Unknown` on its internal failure;
`fetch_biosample_metadata` (lines 163-228) is total, degrading to
all-`Unknown` defaults on any failure. -/
structure Collab where
  run_ncbi_datasets_summary : Line → Int × List Line
  get_lineage : ℕ → Line
  fetch_biosample_metadata : Line → BioMeta

/-- get_metadata.py lines 400-425 applied to one non-blank, non-header
line: rows below 18 fields and rows not selected by `needs_retry` are
written back verbatim; otherwise the biosample dictionary is fetched for
the stripped accession (only when a biosample column group is in scope,
line 414) and the merged fields are re-joined with tabs. -/
def heal_row (c : Collab) (cols : Finset Line) (line : Line) : Line :=
  if (splitTab line).length < 18 then line
  else if needs_retry (splitTab line) cols = false then line
  else
    joinTab (merge_retry c.get_lineage (splitTab line)
      (pyStrip ((splitTab line).getD 3 []))
      (if ({str "biome", str "latlon", str "location"} : Finset Line) ∩ cols ≠ ∅
        then some (c.fetch_biosample_metadata (pyStrip ((splitTab line).getD 0 [])))
        else none)
      cols).1

/-- Rewrite loop of `retry_fill_missing` (lines 388-425): blank lines are
dropped, the first non-blank line is copied verbatim when it is the
header, and every other non-blank line goes through `heal_row`. -/
def rfLoop (c : Collab) (cols : Finset Line) (first : Bool) : List Line → List Line
  | [] => []
  | line :: rest =>
    if isBlank line then rfLoop c cols first rest
    else if first && isLedgerHeader line then line :: rfLoop c cols false rest
    else heal_row c cols line :: rfLoop c cols false rest

/-- get_metadata.py lines 376-429, `retry_fill_missing`, as the function
from the ledger lines to the rewritten ledger lines (the atomic
temp-file-then-replace, the counters and the per-row logging are I/O
outside the model). -/
def retry_fill_missing (c : Collab) (cols : Finset Line) (lines : List Line) : List Line :=
  rfLoop c cols true lines

/-- Declarative description of the rewrite: one output line per non-blank
input line, in order; the first is copied verbatim when it is the header. -/
def retryCleanForm (c : Collab) (cols : Finset Line) (lines : List Line) : List Line :=
  match nonBlankLines lines with
  | [] => []
  | h :: t => (if isLedgerHeader h then h else heal_row c cols h) :: t.map (heal_row c cols)

theorem rfLoop_false_eq (c : Collab) (cols : Finset Line) (lines : List Line) :
    rfLoop c cols false lines = (nonBlankLines lines).map (heal_row c cols) := by
  induction lines with
  | nil => rfl
  | cons line rest ih =>
    by_cases hb : isBlank line
    · simp [rfLoop, hb, nonBlankLines, List.filter_cons, ih]
    · simp [rfLoop, hb, nonBlankLines, List.filter_cons, ih]

theorem retry_fill_missing_eq (c : Collab) (cols : Finset Line) (lines : List Line) :
    retry_fill_missing c cols lines = retryCleanForm c cols lines := by
  unfold retry_fill_missing
  induction lines with
  | nil => rfl
  | cons line rest ih =>
    by_cases hb : isBlank line
    · simp only [rfLoop, hb, if_pos]
      rw [ih]
      simp [retryCleanForm, nonBlankLines, List.filter_cons, hb]
    · by_cases hh : isLedgerHeader line
      · simp [rfLoop, hb, hh, retryCleanForm, nonBlankLines, List.filter_cons, rfLoop_false_eq]
      · simp [rfLoop, hb, hh, retryCleanForm, nonBlankLines, List.filter_cons, rfLoop_false_eq]

/-- The five healable field positions requested by `cols` on an `n`-field
row. -/
def scopeIdx (cols : Finset Line) (n : ℕ) : Finset ℕ :=
  (if str "lineage" ∈ cols then {4} else ∅) ∪
  (if str "location" ∈ cols then {n-4} else ∅) ∪
  (if str "biome" ∈ cols then {n-3} else ∅) ∪
  (if str "latlon" ∈ cols then {n-2, n-1} else ∅)

theorem merge_retry_scope_stable (gl : ℕ → Line) (parts : List Line) (tax : Line)
    (meta : Option BioMeta) (cols : Finset Line) (h18 : 18 ≤ parts.length) (j : ℕ)
    (hj : j ∉ scopeIdx cols parts.length) :
    (merge_retry gl parts tax meta cols).1.getD j [] = parts.getD j [] := by
  by_contra hne
  by_cases h4 : j = 4
  · subst h4
    have h := merge_retry_lineage_frame gl parts tax meta cols h18 hne
    exact hj (by simp [scopeIdx, h.1])
  · by_cases ha : j = parts.length-4
    · subst ha
      have h := merge_retry_location_frame gl parts tax meta cols h18 hne
      exact hj (by simp [scopeIdx, h.1])
    · by_cases hb : j = parts.length-3
      · subst hb
        have h := merge_retry_biome_frame gl parts tax meta cols h18 hne
        exact hj (by simp [scopeIdx, h.1])
      · by_cases hc : j = parts.length-2
        · subst hc
          have h := merge_retry_latitude_frame gl parts tax meta cols h18 hne
          exact hj (by simp [scopeIdx, h.1])
        · by_cases hd : j = parts.length-1
          · subst hd
            have h := merge_retry_longitude_frame gl parts tax meta cols h18 hne
            exact hj (by simp [scopeIdx, h.1])
          · exact hne (merge_retry_getD_stable gl parts tax meta cols j h4 ha hb hc hd)

theorem joinTab_cons_of_ne_nil (a : Line) (ps : List Line) (h : ps ≠ []) :
    joinTab (a :: ps) = a ++ '\t' :: joinTab ps := by
  cases ps with
  | nil => exact absurd rfl h
  | cons b t => rfl

theorem splitOnCharAux_ne_nil (sep : Char) (l cur : Line) : splitOnCharAux sep l cur ≠ [] := by
  induction l generalizing cur with
  | nil => simp [splitOnCharAux]
  | cons c cs ih =>
    by_cases h : (c == sep) = true
    · simp [splitOnCharAux, h]
    · simp [splitOnCharAux, h, ih]

theorem joinTab_splitOnCharAux (l : Line) :
    ∀ cur : Line, joinTab (splitOnCharAux '\t' l cur) = cur.reverse ++ l := by
  induction l with
  | nil => intro cur; simp [splitOnCharAux, joinTab]
  | cons c cs ih =>
    intro cur
    by_cases h : (c == '\t') = true
    · have hc : c = '\t' := by simpa using h
      simp only [splitOnCharAux, if_pos h]
      rw [joinTab_cons_of_ne_nil _ _ (splitOnCharAux_ne_nil _ _ _), ih]
      simp [hc]
    · simp only [splitOnCharAux, if_neg h]
      rw [ih]
      simp

theorem joinTab_splitTab (l : Line) : joinTab (splitTab l) = l := by
  have h := joinTab_splitOnCharAux l []
  simpa [splitTab, splitOnChar] using h

/-- Frame contract of healing one ledger row (see
`retry_fill_missing_frame`): a row of fewer than 18 fields, and a row not
selected by `needs_retry`, comes back byte-identical; in general the
output row is the tab-join of a field list of the same length whose
accession field (index 0) and whose every field outside the requested
healing scope agree with the original fields. -/
def HealRowContract (c : Collab) (cols : Finset Line) (line : Line) : Prop :=
  ((splitTab line).length < 18 → heal_row c cols line = line) ∧
  (needs_retry (splitTab line) cols = false → heal_row c cols line = line) ∧
  ∃ pN : List Line,
    heal_row c cols line = joinTab pN ∧
    pN.length = (splitTab line).length ∧
    pN.getD 0 [] = (splitTab line).getD 0 [] ∧
    ∀ j, j ∉ scopeIdx cols (splitTab line).length → pN.getD j [] = (splitTab line).getD j []

theorem heal_row_spec (c : Collab) (cols : Finset Line) (line : Line) :
    HealRowContract c cols line := by
  unfold HealRowContract
  by_cases h18 : (splitTab line).length < 18
  · have he : heal_row c cols line = line := by
      unfold heal_row
      rw [if_pos h18]
    exact ⟨fun _ => he, fun _ => he, splitTab line,
      by rw [he, joinTab_splitTab], rfl, rfl, fun j _ => rfl⟩
  · by_cases hnr : needs_retry (splitTab line) cols = false
    · have he : heal_row c cols line = line := by
        unfold heal_row
        rw [if_neg h18, if_pos hnr]
      exact ⟨fun h => absurd h h18, fun _ => he, splitTab line,
        by rw [he, joinTab_splitTab], rfl, rfl, fun j _ => rfl⟩
    · have h18' : 18 ≤ (splitTab line).length := by omega
      have he : heal_row c cols line =
          joinTab (merge_retry c.get_lineage (splitTab line)
            (pyStrip ((splitTab line).getD 3 []))
            (if ({str "biome", str "latlon", str "location"} : Finset Line) ∩ cols ≠ ∅
              then some (c.fetch_biosample_metadata (pyStrip ((splitTab line).getD 0 [])))
              else none)
            cols).1 := by
        unfold heal_row
        rw [if_neg h18, if_neg hnr]
      refine ⟨fun h => absurd h h18, fun h => absurd h hnr, _, he, ?_, ?_, ?_⟩
      · exact merge_retry_length _ _ _ _ _
      · exact merge_retry_getD_stable _ _ _ _ _ 0 (by omega) (by omega) (by omega)
          (by omega) (by omega)
      · exact fun j hj => merge_retry_scope_stable _ _ _ _ _ h18' j hj

/-- C8: the healing rewrite emits exactly one line per non-blank ledger
line, in ledger order (the leading header verbatim), and per row the
`HealRowContract` frame holds: rows with fewer than 18 fields and rows not
selected for healing are byte-identical, and a healed row keeps its field
count, its accession field and every field outside the requested healing
scope — only the lineage, location, biome, latitude and longitude
positions of selected rows may change. -/
theorem retry_fill_missing_frame (c : Collab) (cols : Finset Line) (lines : List Line) :
    (retry_fill_missing c cols lines).length = (nonBlankLines lines).length ∧
    retry_fill_missing c cols lines = retryCleanForm c cols lines ∧
    ∀ line : Line, HealRowContract c cols line := by
  refine ⟨?_, retry_fill_missing_eq c cols lines, fun line => heal_row_spec c cols line⟩
  rw [retry_fill_missing_eq]
  unfold retryCleanForm
  cases nonBlankLines lines with
  | nil => rfl
  | cons h t => simp

/-- A deterministic collaborator for concrete runs: the genome summary of
an accession is a single well-formed 13-field row led by the accession
itself. -/
def wCollab : Collab :=
  ⟨fun a => (0, [a ++ str "\tOrg\tCommon\t7\tContig\tPRJ\tSAMN\t50\t1000\tTech\t2020\t2019\tDesc"]),
   fun _ => str "Bacteria; Proteobacteria",
   fun _ => ⟨str "Portugal", str "Marine", str "12.5", str "-7.25"⟩⟩

theorem retry_fill_missing_frame_witness :
    HealRowContract wCollab allowedRetryColumns (str "too\tshort") :=
  (retry_fill_missing_frame wCollab allowedRetryColumns [str "too\tshort"]).2.2 (str "too\tshort")

/- ======================
   Filtered rebuild (get_metadata.py lines 270-296)
   ====================== -/

/-- Inclusion test of the filtered rebuild on an already split row: the
stripped last three fields (`parts[-3..-1]`, i.e. biome, latitude,
longitude) all differ from `Unknown` (lines 291-294). -/
def qualifiesFiltered (parts : List Line) : Bool :=
  pyStrip (parts.getD (parts.length-3) []) != str "Unknown" &&
  pyStrip (parts.getD (parts.length-2) []) != str "Unknown" &&
  pyStrip (parts.getD (parts.length-1) []) != str "Unknown"

/-- Loop of `rebuild_filtered` (lines 280-295): skip blank lines, skip the
first non-blank line when it is the header, drop rows below 18 fields,
copy qualifying rows verbatim. -/
def rbLoop (first : Bool) : List Line → List Line
  | [] => []
  | line :: rest =>
    if isBlank line then rbLoop first rest
    else if first && isLedgerHeader line then rbLoop false rest
    else if (splitTab line).length < 18 then rbLoop false rest
    else if qualifiesFiltered (splitTab line) then line :: rbLoop false rest
    else rbLoop false rest

/-- get_metadata.py lines 270-296, `rebuild_filtered`: the freshly written
header followed by the loop output (the temp-file-then-replace is I/O
outside the model). -/
def rebuild_filtered (lines : List Line) : List Line := headerLine :: rbLoop true lines

/-- The inclusion predicate on a raw ledger line: at least 18 tab-fields
and biome, latitude and longitude resolved. -/
def includeInFiltered (line : Line) : Bool :=
  decide (18 ≤ (splitTab line).length) && qualifiesFiltered (splitTab line)

theorem rbLoop_false_eq (lines : List Line) :
    rbLoop false lines = (nonBlankLines lines).filter includeInFiltered := by
  induction lines with
  | nil => rfl
  | cons line rest ih =>
    by_cases hb : isBlank line
    · simp [rbLoop, hb, nonBlankLines, List.filter_cons, ih]
    · by_cases hlen : (splitTab line).length < 18
      · have hle : ¬ 18 ≤ (splitTab line).length := by omega
        simp [rbLoop, hb, hlen, nonBlankLines, List.filter_cons, ih, includeInFiltered, hle]
      · have hle : 18 ≤ (splitTab line).length := by omega
        by_cases hq : qualifiesFiltered (splitTab line) = true
        · simp [rbLoop, hb, hlen, hq, nonBlankLines, List.filter_cons, ih, includeInFiltered, hle]
        · simp [rbLoop, hb, hlen, hq, nonBlankLines, List.filter_cons, ih, includeInFiltered, hle]

theorem rbLoop_true_eq (lines : List Line) :
    rbLoop true lines = (dropLedgerHeader (nonBlankLines lines)).filter includeInFiltered := by
  induction lines with
  | nil => rfl
  | cons line rest ih =>
    by_cases hb : isBlank line
    · have hnb : nonBlankLines (line :: rest) = nonBlankLines rest := by
        simp [nonBlankLines, List.filter_cons, hb]
      rw [show rbLoop true (line :: rest) = rbLoop true rest from by simp [rbLoop, hb], hnb, ih]
    · have hnb : nonBlankLines (line :: rest) = line :: nonBlankLines rest := by
        simp [nonBlankLines, List.filter_cons, hb]
      rw [hnb]
      by_cases hh : isLedgerHeader line
      · have hdrop : dropLedgerHeader (line :: nonBlankLines rest) = nonBlankLines rest := by
          simp [dropLedgerHeader, hh]
        rw [hdrop,
          show rbLoop true (line :: rest) = rbLoop false rest from by simp [rbLoop, hb, hh]]
        exact rbLoop_false_eq rest
      · have hdrop : dropLedgerHeader (line :: nonBlankLines rest) = line :: nonBlankLines rest := by
          simp [dropLedgerHeader, hh]
        rw [hdrop, List.filter_cons]
        by_cases hlen : (splitTab line).length < 18
        · have hinc : includeInFiltered line = false := by
            unfold includeInFiltered
            have hd : decide (18 ≤ (splitTab line).length) = false := by
              simp only [decide_eq_false_iff_not]
              omega
            rw [hd, Bool.false_and]
          rw [hinc,
            show rbLoop true (line :: rest) = rbLoop false rest from by
              simp [rbLoop, hb, hh, hlen],
            rbLoop_false_eq]
          simp
        · by_cases hq : qualifiesFiltered (splitTab line) = true
          · have hinc : includeInFiltered line = true := by
              unfold includeInFiltered
              rw [hq, Bool.and_true]
              simp only [decide_eq_true_eq]
              omega
            rw [hinc,
              show rbLoop true (line :: rest) = line :: rbLoop false rest from by
                simp [rbLoop, hb, hh, hlen, hq],
              rbLoop_false_eq]
            simp
          · have hqf : qualifiesFiltered (splitTab line) = false := by
              cases hqc : qualifiesFiltered (splitTab line)
              · rfl
              · exact absurd hqc hq
            have hinc : includeInFiltered line = false := by
              unfold includeInFiltered
              rw [hqf, Bool.and_false]
            rw [hinc,
              show rbLoop true (line :: rest) = rbLoop false rest from by
                simp [rbLoop, hb, hh, hlen, hq],
              rbLoop_false_eq]
            simp

/-- C4: the rebuilt filtered view is exactly one header line followed by
exactly those ledger data lines (the non-blank lines, minus a leading
header) that have at least 18 tab-separated fields and whose biome,
latitude and longitude fields all strip to something other than `Unknown`;
`List.filter` preserves order and multiplicity, so each qualifying line
appears exactly once in ledger order, and blank lines and short rows are
silently dropped. -/
theorem rebuild_filtered_correct (lines : List Line) :
    rebuild_filtered lines =
      headerLine :: (dropLedgerHeader (nonBlankLines lines)).filter includeInFiltered := by
  unfold rebuild_filtered
  rw [rbLoop_true_eq]

/- ======================
   Main pipeline, normal mode (get_metadata.py lines 435-566)
   ====================== -/

/-- get_metadata.py lines 78-84, `is_header_line`: detection of the input
file header by content. -/
def is_header_line (line : Line) : Bool :=
  startsWithL (toLowerL (pyStrip line)) (str "assembly accession") ||
  (containsSub (toLowerL (pyStrip line)) (str "assembly") &&
   containsSub (toLowerL (pyStrip line)) (str "accession")) ||
  (containsSub (toLowerL (pyStrip line)) (str "organism") &&
   containsSub (toLowerL (pyStrip line)) (str "tax id"))

/-- get_metadata.py line 500: the accession of an input line — its first
tab-field when it contains a tab, else its first whitespace token — then
stripped. -/
def extract_accession (line : Line) : Line :=
  if line.contains '\t' then pyStrip (firstField line)
  else pyStrip ((pySplit line).headD [])

/-- get_metadata.py lines 487-506: the accession candidates of one run —
the non-blank input lines, minus the auto-detected header when
`no_input_header` is off, extracted and with empty accessions dropped. -/
def candidate_accessions (no_input_header : Bool) (input : List Line) : List Line :=
  let body :=
    match nonBlankLines input with
    | [] => []
    | h :: t => if !no_input_header && is_header_line h then t else h :: t
  (body.map extract_accession).filter (fun a => a != [])

/-- One enriched output row (lines 532-543): the summary fields with the
lineage spliced in after the tax id (`Unknown` when the tax id is not a
digit string) and the four biosample fields appended. -/
def enriched_line (c : Collab) (assembly_id : Line) (output_line : Line) : Line :=
  joinTab ((splitTab output_line).take 4) ++ str "\t" ++
    (if pyIsDigit ((splitTab output_line).getD 3 []) = true then
       c.get_lineage (natOfDigits ((splitTab output_line).getD 3 []))
     else str "Unknown") ++ str "\t" ++
  joinTab ((splitTab output_line).drop 4) ++ str "\t" ++
  (c.fetch_biosample_metadata assembly_id).location ++ str "\t" ++
  (c.fetch_biosample_metadata assembly_id).biome ++ str "\t" ++
  (c.fetch_biosample_metadata assembly_id).latitude ++ str "\t" ++
  (c.fetch_biosample_metadata assembly_id).longitude

/-- The enriched rows one summary invocation contributes (lines 509-546):
none when the process failed; otherwise the stdout lines minus a repeated
header, keeping non-blank lines of at least 13 fields, each enriched. -/
def rowsFor (c : Collab) (assembly_id : Line) : List Line :=
  if (c.run_ncbi_datasets_summary assembly_id).1 ≠ 0 then []
  else
    ((dropLedgerHeader (c.run_ncbi_datasets_summary assembly_id).2).filter
      (fun l => !isBlank l && decide (13 ≤ (splitTab l).length))).map
      (enriched_line c assembly_id)

/-- The run-scoped state of the normal loop: ledger lines, processed set,
the two summary counters, and the trace of summary invocations and logged
failures. -/
structure RunState where
  ledger : List Line
  processed : Finset Line
  skipped_already : ℕ
  processed_now : ℕ
  fetched : List Line
  failed : List Line

/-- get_metadata.py lines 504-550, one candidate accession: skip it when
already processed (counting it); otherwise invoke the summary fetcher
(recorded in `fetched`); a non-zero status is logged in `failed` and the
loop continues; otherwise the usable rows are appended (the per-row
appends of the source concatenate to `rowsFor`) and the accession is
marked processed, with the counter stepped, exactly when at least one row
was appended. -/
def process_accession (c : Collab) (s : RunState) (assembly_id : Line) : RunState :=
  if assembly_id ∈ s.processed then
    { s with skipped_already := s.skipped_already + 1 }
  else if (c.run_ncbi_datasets_summary assembly_id).1 ≠ 0 then
    { s with fetched := s.fetched ++ [assembly_id], failed := s.failed ++ [assembly_id] }
  else if dropLedgerHeader (c.run_ncbi_datasets_summary assembly_id).2 = [] then
    { s with fetched := s.fetched ++ [assembly_id] }
  else if rowsFor c assembly_id = [] then
    { s with fetched := s.fetched ++ [assembly_id] }
  else
    { s with fetched := s.fetched ++ [assembly_id],
             ledger := s.ledger ++ rowsFor c assembly_id,
             processed := insert assembly_id s.processed,
             processed_now := s.processed_now + 1 }

/-- get_metadata.py lines 456-550 in normal mode, without `--resume` (which
could only enlarge the processed set) and without the optional
`--retry-missing` healing: ensure the header, rebuild the processed set
from the ledger itself, then fold over the input candidates.  The final
`rebuild_filtered` (line 557) writes the separate filtered file and never
touches the ledger. -/
def run_normal (c : Collab) (input : List Line) (no_input_header : Bool)
    (ledger0 : List Line) : RunState :=
  (candidate_accessions no_input_header input).foldl (process_accession c)
    { ledger := ensure_header ledger0,
      processed := read_processed_core (ensure_header ledger0),
      skipped_already := 0, processed_now := 0, fetched := [], failed := [] }

/-- Per-accession contract of the normal loop on a not-yet-processed
accession (see `process_accession_error_and_marking`): a failed summary
invocation only records the failure; the accession is marked processed,
the counter stepped and its rows appended exactly when at least one
enriched row exists for it. -/
def ProcessOneContract (c : Collab) (s : RunState) (a : Line) : Prop :=
  ((c.run_ncbi_datasets_summary a).1 ≠ 0 →
    process_accession c s a =
      { s with fetched := s.fetched ++ [a], failed := s.failed ++ [a] }) ∧
  (rowsFor c a ≠ [] →
    process_accession c s a =
      { s with fetched := s.fetched ++ [a],
               ledger := s.ledger ++ rowsFor c a,
               processed := insert a s.processed,
               processed_now := s.processed_now + 1 }) ∧
  (rowsFor c a = [] →
    (process_accession c s a).ledger = s.ledger ∧
    (process_accession c s a).processed = s.processed ∧
    (process_accession c s a).processed_now = s.processed_now)

theorem step_skip (c : Collab) (s : RunState) (a : Line) (h : a ∈ s.processed) :
    process_accession c s a = { s with skipped_already := s.skipped_already + 1 } := by
  unfold process_accession
  rw [if_pos h]

theorem step_no_rows (c : Collab) (s : RunState) (a : Line) (h : a ∉ s.processed)
    (hrows : rowsFor c a = []) :
    (process_accession c s a).ledger = s.ledger ∧
    (process_accession c s a).processed = s.processed ∧
    (process_accession c s a).processed_now = s.processed_now := by
  unfold process_accession
  rw [if_neg h]
  by_cases hret : (c.run_ncbi_datasets_summary a).1 ≠ 0
  · rw [if_pos hret]; exact ⟨rfl, rfl, rfl⟩
  · rw [if_neg hret]
    by_cases hdrop : dropLedgerHeader (c.run_ncbi_datasets_summary a).2 = []
    · rw [if_pos hdrop]; exact ⟨rfl, rfl, rfl⟩
    · rw [if_neg hdrop, if_pos hrows]; exact ⟨rfl, rfl, rfl⟩

theorem step_with_rows (c : Collab) (s : RunState) (a : Line) (h : a ∉ s.processed)
    (hrows : rowsFor c a ≠ []) :
    process_accession c s a =
      { s with fetched := s.fetched ++ [a], ledger := s.ledger ++ rowsFor c a,
               processed := insert a s.processed, processed_now := s.processed_now + 1 } := by
  have hret : ¬ (c.run_ncbi_datasets_summary a).1 ≠ 0 := by
    intro hr
    exact hrows (by unfold rowsFor; rw [if_pos hr])
  have hdrop : dropLedgerHeader (c.run_ncbi_datasets_summary a).2 ≠ [] := by
    intro hd
    apply hrows
    unfold rowsFor
    rw [if_neg hret, hd]
    rfl
  unfold process_accession
  rw [if_neg h, if_neg hret, if_neg hdrop, if_neg hrows]

/-- C7: per-accession recoverable errors and processed-marking: for a
not-yet-processed accession, a non-zero status from the genome summary
fetcher only logs the failure and records the invocation — no row is
appended, the accession is not marked processed, and the fold continues
with the next candidate; conversely the accession is marked processed and
counted in the run summary if and only if at least one enriched row was
appended for it. -/
theorem process_accession_error_and_marking (c : Collab) (s : RunState) (a : Line)
    (ha : a ∉ s.processed) : ProcessOneContract c s a := by
  unfold ProcessOneContract
  by_cases hrows : rowsFor c a = []
  · have hnr := step_no_rows c s a ha hrows
    refine ⟨?_, fun h => absurd hrows h, fun _ => hnr⟩
    intro hret
    unfold process_accession
    rw [if_neg ha, if_pos hret]
  · have hret : ¬ (c.run_ncbi_datasets_summary a).1 ≠ 0 := by
      intro hr
      exact hrows (by unfold rowsFor; rw [if_pos hr])
    exact ⟨fun h => absurd h hret, fun _ => step_with_rows c s a ha hrows,
      fun h => absurd h hrows⟩

/-- A run state with an empty processed set, used to exercise the
per-accession contract. -/
def wState : RunState := ⟨[headerLine], ∅, 0, 0, [], []⟩

theorem process_accession_error_and_marking_witness :
    (str "GCF_1" ∉ wState.processed) ∧ ProcessOneContract wCollab wState (str "GCF_1") :=
  ⟨by decide, process_accession_error_and_marking wCollab wState (str "GCF_1") (by decide)⟩

/- ======================
   Run-level lemmas: dedup (C2) and idempotence (C1)
   ====================== -/

theorem step_mono_processed (c : Collab) (s : RunState) (a : Line) :
    s.processed ⊆ (process_accession c s a).processed := by
  unfold process_accession
  by_cases hp : a ∈ s.processed
  · rw [if_pos hp]
  · rw [if_neg hp]
    by_cases hret : (c.run_ncbi_datasets_summary a).1 ≠ 0
    · rw [if_pos hret]
    · rw [if_neg hret]
      by_cases hdrop : dropLedgerHeader (c.run_ncbi_datasets_summary a).2 = []
      · rw [if_pos hdrop]
      · rw [if_neg hdrop]
        by_cases hrows : rowsFor c a = []
        · rw [if_pos hrows]
        · rw [if_neg hrows]; exact Finset.subset_insert _ _

theorem step_fetched (c : Collab) (s : RunState) (a : Line) :
    (process_accession c s a).fetched =
      s.fetched ++ (if a ∈ s.processed then [] else [a]) := by
  unfold process_accession
  by_cases hp : a ∈ s.processed
  · simp [hp]
  · by_cases hret : (c.run_ncbi_datasets_summary a).1 ≠ 0
    · simp [hp, hret]
    · by_cases hdrop : dropLedgerHeader (c.run_ncbi_datasets_summary a).2 = []
      · simp [hp, hret, hdrop]
      · by_cases hrows : rowsFor c a = []
        · simp [hp, hret, hdrop, hrows]
        · simp [hp, hret, hdrop, hrows]

theorem step_skipped (c : Collab) (s : RunState) (a : Line) :
    (process_accession c s a).skipped_already =
      s.skipped_already + (if a ∈ s.processed then 1 else 0) := by
  unfold process_accession
  by_cases hp : a ∈ s.processed
  · simp [hp]
  · by_cases hret : (c.run_ncbi_datasets_summary a).1 ≠ 0
    · simp [hp, hret]
    · by_cases hdrop : dropLedgerHeader (c.run_ncbi_datasets_summary a).2 = []
      · simp [hp, hret, hdrop]
      · by_cases hrows : rowsFor c a = []
        · simp [hp, hret, hdrop, hrows]
        · simp [hp, hret, hdrop, hrows]

theorem fold_mono_processed (c : Collab) (as : List Line) :
    ∀ s : RunState, s.processed ⊆ (as.foldl (process_accession c) s).processed := by
  induction as with
  | nil => intro s; exact fun x hx => hx
  | cons a t ih =>
    intro s
    exact fun x hx => ih (process_accession c s a) (step_mono_processed c s a hx)

theorem fold_fetched (c : Collab) (as : List Line) :
    ∀ s : RunState, ∀ b : Line, b ∈ (as.foldl (process_accession c) s).fetched →
      b ∈ s.fetched ∨ b ∉ s.processed := by
  induction as with
  | nil => intro s b hb; exact Or.inl hb
  | cons a t ih =>
    intro s b hb
    rcases ih (process_accession c s a) b hb with h | h
    · rw [step_fetched] at h
      rcases List.mem_append.mp h with h1 | h1
      · exact Or.inl h1
      · by_cases hp : a ∈ s.processed
        · rw [if_pos hp] at h1; cases h1
        · rw [if_neg hp] at h1
          have hba : b = a := by simpa using h1
          subst hba
          exact Or.inr hp
    · exact Or.inr (fun hb2 => h (step_mono_processed c s a hb2))

theorem fold_skipped_count (c : Collab) (as : List Line) :
    ∀ s : RunState, ∀ a : Line, a ∈ s.processed →
      s.skipped_already + as.count a ≤ (as.foldl (process_accession c) s).skipped_already := by
  induction as with
  | nil => intro s a ha; simp
  | cons b t ih =>
    intro s a ha
    have h1 := ih (process_accession c s b) a (step_mono_processed c s b ha)
    have h2 := step_skipped c s b
    by_cases hab : b = a
    · subst hab
      rw [List.count_cons_self, if_pos ha] at *
      rw [List.foldl_cons]
      omega
    · rw [List.count_cons_of_ne (fun e => hab e.symm), List.foldl_cons]
      have h3 : s.skipped_already ≤ (process_accession c s b).skipped_already := by
        rw [h2]; omega
      omega

/-- C2: an accession that already appears in column 1 of a non-blank,
non-header line of the ledger at the start of a normal run is never passed
to the genome summary fetcher during the run, and every one of its
occurrences among the input candidates is counted as
already-present-and-skipped. -/
theorem dedup_never_refetches (c : Collab) (input : List Line) (nih : Bool)
    (ledger0 : List Line) (a : Line) (ha : a ∈ read_processed_core ledger0) :
    a ∉ (run_normal c input nih ledger0).fetched ∧
    (candidate_accessions nih input).count a ≤ (run_normal c input nih ledger0).skipped_already := by
  have hcore_nil : read_processed_core ([] : List Line) = ∅ := rfl
  have hinit : a ∈ read_processed_core (ensure_header ledger0) := by
    unfold ensure_header
    by_cases h : ledger0 = []
    · rw [h] at ha
      rw [hcore_nil] at ha
      exact absurd ha (Finset.not_mem_empty a)
    · rw [if_neg h]
      exact ha
  unfold run_normal
  constructor
  · intro hmem
    rcases fold_fetched c (candidate_accessions nih input) _ a hmem with h | h
    · exact List.not_mem_nil a h
    · exact h hinit
  · have h := fold_skipped_count c (candidate_accessions nih input)
      { ledger := ensure_header ledger0,
        processed := read_processed_core (ensure_header ledger0),
        skipped_already := 0, processed_now := 0, fetched := [], failed := [] } a hinit
    simpa using h

/-- A two-line ledger: the header, then a data row for accession GCF_9. -/
def wLedger : List Line := [headerLine, str "GCF_9\tx\ty"]

theorem dedup_never_refetches_witness :
    (str "GCF_9" ∈ read_processed_core wLedger) ∧
    (str "GCF_9" ∉ (run_normal wCollab [str "GCF_9"] false wLedger).fetched ∧
      (candidate_accessions false [str "GCF_9"]).count (str "GCF_9") ≤
        (run_normal wCollab [str "GCF_9"] false wLedger).skipped_already) :=
  ⟨by decide, dedup_never_refetches wCollab [str "GCF_9"] false wLedger (str "GCF_9") (by decide)⟩

theorem pyStrip_eq_nil_iff (l : Line) : pyStrip l = [] ↔ ∀ ch ∈ l, isWS ch = true := by
  unfold pyStrip
  rw [List.reverse_eq_nil_iff, List.dropWhile_eq_nil_iff]
  constructor
  · intro h ch hch
    rw [← List.takeWhile_append_dropWhile (p := isWS) (l := l)] at hch
    rcases List.mem_append.mp hch with h1 | h1
    · exact List.mem_takeWhile_imp h1
    · exact h ch (List.mem_reverse.mpr h1)
  · intro h x hx
    exact h x ((List.dropWhile_sublist _).subset (List.mem_reverse.mp hx))

theorem isBlank_false_of_mem (l : Line) (ch : Char) (hm : ch ∈ l) (hws : isWS ch = false) :
    isBlank l = false := by
  unfold isBlank
  rw [beq_eq_false_iff_ne]
  intro h
  have := (pyStrip_eq_nil_iff l).mp h ch hm
  rw [hws] at this
  exact Bool.noConfusion this

theorem isWS_false_of_isDigit (ch : Char) (h : ch.isDigit = true) : isWS ch = false := by
  cases hw : isWS ch
  · rfl
  · exfalso
    unfold isWS Char.isWhitespace at hw
    simp only [Bool.or_eq_true, decide_eq_true_eq] at hw
    rcases hw with ((h1 | h2) | h3) | h4
    · subst h1; exact absurd h (by decide)
    · subst h2; exact absurd h (by decide)
    · subst h3; exact absurd h (by decide)
    · subst h4; exact absurd h (by decide)

theorem mem_joinTab (ch : Char) (p : Line) (hc : ch ∈ p) :
    ∀ ps : List Line, p ∈ ps → ch ∈ joinTab ps := by
  intro ps
  induction ps with
  | nil => intro hp; cases hp
  | cons q rest ih =>
    intro hp
    cases rest with
    | nil =>
      have hpq : p = q := by simpa using hp
      subst hpq
      simpa [joinTab] using hc
    | cons r t =>
      rw [joinTab_cons_of_ne_nil _ _ (by simp)]
      rcases List.mem_cons.mp hp with h | h
      · subst h; exact List.mem_append.mpr (Or.inl hc)
      · exact List.mem_append.mpr (Or.inr (List.mem_cons.mpr (Or.inr (ih h))))

theorem enriched_line_not_blank (c : Collab) (a : Line) (line : Line)
    (h13 : 13 ≤ (splitTab line).length) :
    isBlank (enriched_line c a line) = false := by
  by_cases hd : pyIsDigit ((splitTab line).getD 3 []) = true
  · obtain ⟨ch, hch, hdig⟩ : ∃ ch ∈ (splitTab line).getD 3 [], ch.isDigit = true := by
      cases htax : (splitTab line).getD 3 [] with
      | nil =>
        rw [htax] at hd
        exact absurd hd (by decide)
      | cons c0 t =>
        rw [htax] at hd
        unfold pyIsDigit at hd
        simp only [List.isEmpty_cons, Bool.not_false, Bool.true_and, List.all_cons,
          Bool.and_eq_true] at hd
        exact ⟨c0, List.mem_cons_self c0 t, hd.1⟩
    have hlt : 3 < (splitTab line).length := by omega
    have hgetD : (splitTab line).getD 3 [] = (splitTab line)[3] := by
      rw [List.getD_eq_getElem?_getD, List.getElem?_eq_getElem hlt, Option.getD_some]
    have htaxmem : (splitTab line).getD 3 [] ∈
        List.take 4 (splitTab line) ++ List.drop 4 (splitTab line) := by
      rw [List.take_append_drop, hgetD]
      exact List.getElem_mem hlt
    rcases List.mem_append.mp htaxmem with hmem | hmem
    · have hj := mem_joinTab ch _ hch _ hmem
      exact isBlank_false_of_mem _ ch
        (by simp [enriched_line, List.mem_append, hj])
        (isWS_false_of_isDigit ch hdig)
    · have hj := mem_joinTab ch _ hch _ hmem
      exact isBlank_false_of_mem _ ch
        (by simp [enriched_line, List.mem_append, hj])
        (isWS_false_of_isDigit ch hdig)
  · have hU : ('U' : Char) ∈ str "Unknown" := by decide
    refine isBlank_false_of_mem _ 'U' ?_ (by decide)
    unfold enriched_line
    rw [if_neg hd]
    simp [List.mem_append, hU]

theorem rowsFor_not_blank (c : Collab) (a : Line) :
    ∀ r ∈ rowsFor c a, isBlank r = false := by
  intro r hr
  unfold rowsFor at hr
  split at hr
  · cases hr
  · rcases List.mem_map.mp hr with ⟨l, hl, rfl⟩
    have hgood := List.of_mem_filter hl
    simp only [Bool.and_eq_true, Bool.not_eq_true', decide_eq_true_eq] at hgood
    exact enriched_line_not_blank c a l hgood.2

theorem fold_ledger_decomp (c : Collab) (as : List Line) :
    ∀ s : RunState,
      (∀ a ∈ as, ∀ r ∈ rowsFor c a, firstField r = a) →
      ∃ rows : List Line,
        (as.foldl (process_accession c) s).ledger = s.ledger ++ rows ∧
        (∀ r ∈ rows, isBlank r = false) ∧
        (as.foldl (process_accession c) s).processed ⊆
          s.processed ∪ (rows.map firstField).toFinset := by
  induction as with
  | nil =>
    intro s _
    exact ⟨[], by simp, fun r hr => absurd hr (List.not_mem_nil r), by simp⟩
  | cons a t ih =>
    intro s hfc
    have hfc' : ∀ b ∈ t, ∀ r ∈ rowsFor c b, firstField r = b :=
      fun b hb => hfc b (List.mem_cons.mpr (Or.inr hb))
    rw [List.foldl_cons]
    by_cases hp : a ∈ s.processed
    · rw [step_skip c s a hp]
      obtain ⟨rows, h1, h2, h3⟩ := ih _ hfc'
      exact ⟨rows, h1, h2, h3⟩
    · by_cases hrows : rowsFor c a = []
      · obtain ⟨rows, h1, h2, h3⟩ := ih (process_accession c s a) hfc'
        have hnr := step_no_rows c s a hp hrows
        refine ⟨rows, ?_, h2, ?_⟩
        · rw [h1, hnr.1]
        · intro x hx
          rcases Finset.mem_union.mp (h3 hx) with hx1 | hx1
          · rw [hnr.2.1] at hx1
            exact Finset.mem_union.mpr (Or.inl hx1)
          · exact Finset.mem_union.mpr (Or.inr hx1)
      · rw [step_with_rows c s a hp hrows]
        obtain ⟨rows, h1, h2, h3⟩ := ih _ hfc'
        refine ⟨rowsFor c a ++ rows, ?_, ?_, ?_⟩
        · rw [h1]
          exact (List.append_assoc _ _ _).symm ▸ rfl
        · intro r hr
          rcases List.mem_append.mp hr with h | h
          · exact rowsFor_not_blank c a r h
          · exact h2 r h
        · intro x hx
          rcases Finset.mem_union.mp (h3 hx) with hx1 | hx1
          · rcases Finset.mem_insert.mp hx1 with rfl | hx2
            · refine Finset.mem_union.mpr (Or.inr ?_)
              rw [List.map_append, List.toFinset_append]
              refine Finset.mem_union.mpr (Or.inl ?_)
              obtain ⟨r, hrmem⟩ := List.exists_mem_of_ne_nil (rowsFor c x) hrows
              have hfr := hfc x (List.mem_cons_self x t) r hrmem
              rw [List.mem_toFinset]
              exact List.mem_map.mpr ⟨r, hrmem, hfr⟩
            · exact Finset.mem_union.mpr (Or.inl hx2)
          · refine Finset.mem_union.mpr (Or.inr ?_)
            rw [List.map_append, List.toFinset_append]
            exact Finset.mem_union.mpr (Or.inr hx1)

theorem fold_marks_processed (c : Collab) (as : List Line) :
    ∀ s : RunState, ∀ a : Line, a ∈ as → rowsFor c a ≠ [] →
      a ∈ (as.foldl (process_accession c) s).processed := by
  induction as with
  | nil => intro s a ha; cases ha
  | cons b t ih =>
    intro s a ha hrows
    rcases List.mem_cons.mp ha with rfl | hat
    · rw [List.foldl_cons]
      by_cases hp : a ∈ s.processed
      · exact fold_mono_processed c t _ (step_mono_processed c s a hp)
      · refine fold_mono_processed c t _ ?_
        rw [step_with_rows c s a hp hrows]
        exact Finset.mem_insert_self a _
    · rw [List.foldl_cons]
      exact ih _ a hat hrows

theorem fold_no_op (c : Collab) (as : List Line) (P : Finset Line) :
    ∀ s : RunState, s.processed = P →
      (∀ a ∈ as, a ∈ P ∨ rowsFor c a = []) →
      (as.foldl (process_accession c) s).ledger = s.ledger ∧
      (as.foldl (process_accession c) s).processed = P := by
  induction as with
  | nil => intro s hs _; exact ⟨rfl, hs⟩
  | cons a t ih =>
    intro s hs hcond
    have hcond' : ∀ b ∈ t, b ∈ P ∨ rowsFor c b = [] :=
      fun b hb => hcond b (List.mem_cons.mpr (Or.inr hb))
    rw [List.foldl_cons]
    by_cases hp : a ∈ s.processed
    · rw [step_skip c s a hp]
      exact ih _ hs hcond'
    · rcases hcond a (List.mem_cons_self a t) with hmem | hrows
      · exact absurd (hs ▸ hmem) hp
      · have hnr := step_no_rows c s a hp hrows
        obtain ⟨h1, h2⟩ := ih (process_accession c s a) (hnr.2.1.trans hs) hcond'
        exact ⟨h1.trans hnr.1, h2⟩

theorem rpClean_append (xs ys : List Line) (hx : ∃ l ∈ xs, isBlank l = false) :
    rpClean (xs ++ ys) = rpClean xs ∪ rpNoHdr ys := by
  unfold rpClean rpNoHdr nonBlankLines
  rw [List.filter_append]
  obtain ⟨l, hl, hbl⟩ := hx
  have hmem : l ∈ xs.filter (fun l => !isBlank l) :=
    List.mem_filter.mpr ⟨hl, by rw [hbl]; rfl⟩
  cases hxs : xs.filter (fun l => !isBlank l) with
  | nil =>
    rw [hxs] at hmem
    cases hmem
  | cons h t =>
    show accessionsOf (dropLedgerHeader (h :: (t ++ ys.filter (fun l => !isBlank l)))) =
      accessionsOf (dropLedgerHeader (h :: t)) ∪
        accessionsOf (ys.filter (fun l => !isBlank l))
    unfold dropLedgerHeader accessionsOf
    by_cases hh : isLedgerHeader h
    · simp [hh, List.map_append, List.toFinset_append]
    · simp [hh, List.map_append, List.toFinset_append, Finset.insert_union]

theorem ensure_header_ne_nil (ledger : List Line) : ensure_header ledger ≠ [] := by
  unfold ensure_header
  by_cases h : ledger = []
  · rw [if_pos h]; simp
  · rw [if_neg h]; exact h

theorem ensure_header_has_nonblank (ledger : List Line)
    (hled : ledger = [] ∨ ∃ l ∈ ledger, isBlank l = false) :
    ∃ l ∈ ensure_header ledger, isBlank l = false := by
  rcases hled with rfl | ⟨l, hl, hbl⟩
  · refine ⟨headerLine, ?_, by decide⟩
    unfold ensure_header
    simp
  · have hne : ledger ≠ [] := by
      rintro rfl
      cases hl
    refine ⟨l, ?_, hbl⟩
    unfold ensure_header
    rw [if_neg hne]
    exact hl

/-- C1 (counterexample): deterministic collaborators whose genome summary
row carries a different accession in its first column. -/
def cBad : Collab :=
  ⟨fun _ => (0, [str "XX_OTHER\tOrg\tCommon\t7\tContig\tPRJ\tSAMN\t50\t1000\tTech\t2020\t2019\tDesc"]),
   fun _ => str "Bacteria",
   fun _ => ⟨str "Unknown", str "Unknown", str "Unknown", str "Unknown"⟩⟩

set_option maxRecDepth 20000 in
/-- C1 (counterexample): with `cBad` the appended row does not carry the
queried accession, so re-reading the ledger does not mark that accession
processed and the second identical run appends the row again — the ledger
is not byte-identical after the second run, refuting the claim as stated
(for arbitrary deterministic collaborators). -/
theorem run_normal_not_idempotent_cex :
    (run_normal cBad [str "GCF_1"] false
        (run_normal cBad [str "GCF_1"] false []).ledger).ledger ≠
      (run_normal cBad [str "GCF_1"] false []).ledger := by decide

/-- C1 (amended): running the normal pipeline (ingest without healing)
twice against the same input, the same ledger and the same deterministic
collaborators leaves the ledger byte-identical after the second run — no
row appended, no row altered (the run only ever appends) — provided
(i) the starting ledger is empty or contains a non-blank line (a non-empty
all-blank ledger file defeats the header detection on re-read), and
(ii) every enriched row appended for an input candidate carries that
candidate accession in its first column, i.e. the genome summary fetcher
echoes the queried accession. -/
theorem run_normal_idempotent_amended (c : Collab) (input : List Line) (nih : Bool)
    (ledger0 : List Line)
    (hled : ledger0 = [] ∨ ∃ l ∈ ledger0, isBlank l = false)
    (hfc : ∀ a ∈ candidate_accessions nih input, ∀ r ∈ rowsFor c a, firstField r = a) :
    (run_normal c input nih (run_normal c input nih ledger0).ledger).ledger =
      (run_normal c input nih ledger0).ledger := by
  have hrunL : ∀ L : List Line, run_normal c input nih L =
      (candidate_accessions nih input).foldl (process_accession c)
        { ledger := ensure_header L, processed := read_processed_core (ensure_header L),
          skipped_already := 0, processed_now := 0, fetched := [], failed := [] } :=
    fun L => rfl
  have hrun1 := hrunL ledger0
  obtain ⟨rows, hled1, hrowsnb, hproc1⟩ :=
    fold_ledger_decomp c (candidate_accessions nih input)
      { ledger := ensure_header ledger0,
        processed := read_processed_core (ensure_header ledger0),
        skipped_already := 0, processed_now := 0, fetched := [], failed := [] } hfc
  have hnbL0 : ∃ l ∈ ensure_header ledger0, isBlank l = false :=
    ensure_header_has_nonblank ledger0 hled
  have hL1 : (run_normal c input nih ledger0).ledger = ensure_header ledger0 ++ rows := by
    rw [hrun1]
    exact hled1
  have hP2 : read_processed_core ((run_normal c input nih ledger0).ledger) =
      rpClean (ensure_header ledger0) ∪ rpNoHdr rows := by
    rw [hL1, read_processed_core_eq, rpClean_append _ _ hnbL0]
  have hP0sub : read_processed_core (ensure_header ledger0) ⊆
      read_processed_core ((run_normal c input nih ledger0).ledger) := by
    rw [hP2, read_processed_core_eq]
    exact Finset.subset_union_left
  have hrowssub : (rows.map firstField).toFinset ⊆
      read_processed_core ((run_normal c input nih ledger0).ledger) := by
    rw [hP2]
    intro x hx
    refine Finset.mem_union.mpr (Or.inr ?_)
    unfold rpNoHdr nonBlankLines accessionsOf
    rw [List.filter_eq_self.mpr (fun r hr => by rw [hrowsnb r hr]; rfl)]
    exact hx
  have hcond : ∀ a ∈ candidate_accessions nih input,
      a ∈ read_processed_core ((run_normal c input nih ledger0).ledger) ∨
        rowsFor c a = [] := by
    intro a ha
    by_cases hrowsa : rowsFor c a = []
    · exact Or.inr hrowsa
    · left
      have hmark := fold_marks_processed c (candidate_accessions nih input)
        { ledger := ensure_header ledger0,
          processed := read_processed_core (ensure_header ledger0),
          skipped_already := 0, processed_now := 0, fetched := [], failed := [] }
        a ha hrowsa
      rcases Finset.mem_union.mp (hproc1 hmark) with h | h
      · exact hP0sub h
      · exact hrowssub h
  have hL1ne : (run_normal c input nih ledger0).ledger ≠ [] := by
    rw [hL1]
    intro h
    exact ensure_header_ne_nil ledger0 (List.append_eq_nil.mp h).1
  have hens2 : ensure_header ((run_normal c input nih ledger0).ledger) =
      (run_normal c input nih ledger0).ledger := by
    unfold ensure_header
    rw [if_neg hL1ne]
  have hrun2 := hrunL ((run_normal c input nih ledger0).ledger)
  rw [hens2] at hrun2
  rw [hrun2]
  exact (fold_no_op c (candidate_accessions nih input)
    (read_processed_core ((run_normal c input nih ledger0).ledger)) _ rfl hcond).1

theorem run_normal_idempotent_amended_witness :
    (([] : List Line) = [] ∨ ∃ l ∈ ([] : List Line), isBlank l = false) ∧
    (∀ a ∈ candidate_accessions false [str "GCF_1"],
      ∀ r ∈ rowsFor wCollab a, firstField r = a) ∧
    (run_normal wCollab [str "GCF_1"] false
        (run_normal wCollab [str "GCF_1"] false []).ledger).ledger =
      (run_normal wCollab [str "GCF_1"] false []).ledger :=
  ⟨Or.inl rfl, by decide,
   run_normal_idempotent_amended wCollab [str "GCF_1"] false [] (Or.inl rfl) (by decide)⟩

/- ======================
   Concrete instantiations of the remaining contracts
   ====================== -/

theorem parse_latitude_longitude_spec_witness :
    parse_latitude_longitude (some (str "3.5 S 10 E extra")) =
      parseLatLonClaim (some (str "3.5 S 10 E extra")) :=
  parse_latitude_longitude_spec.1 (some (str "3.5 S 10 E extra"))

theorem categorize_biome_spec_witness :
    categorize_biome (some (str "Hot spring mat")) =
      firstMatchCategory (toLowerL (str "Hot spring mat")) :=
  categorize_biome_spec.2.1 (str "Hot spring mat")

theorem parse_retry_columns_nonempty_witness :
    parse_retry_columns (some (str "biome, latlon")) ≠ ∅ ∧
    parse_retry_columns (some (str "biome, latlon")) ⊆ allowedRetryColumns ∧
    parse_retry_columns (some (str "biome, latlon")) =
      (if recognizedRetryTokens (some (str "biome, latlon")) = ∅ then allowedRetryColumns
       else recognizedRetryTokens (some (str "biome, latlon"))) :=
  parse_retry_columns_nonempty (some (str "biome, latlon"))

theorem read_processed_accessions_total_witness :
    read_processed_accessions (some [Except.ok (str "GCF_7\tx"), Except.error ()]) =
      rpClean (okPart [Except.ok (str "GCF_7\tx"), Except.error ()]) :=
  read_processed_accessions_total.2 [Except.ok (str "GCF_7\tx"), Except.error ()]

theorem rebuild_filtered_correct_witness :
    rebuild_filtered wLedger =
      headerLine :: (dropLedgerHeader (nonBlankLines wLedger)).filter includeInFiltered :=
  rebuild_filtered_correct wLedger

end GetMetadata
